import Mathlib

/-!
# libcr: coroutine scheduler and poll adapter

A shallow embedding of `src/coroutine_impl.c` / `src/coroutine_impl.h`.

Pointers to `coroutine_t` and `env_t` records are indices into typed heaps
(`World.cos`, `World.envs`); a nullable pointer is an `Option`.  A dereference
of a pointer outside its heap, or an array read at a negative index, has no
defined behaviour in C and makes the embedded operation return `none`.
-/

namespace Libcr

/-! ## Constants -/

/-- The constant `static const int kMinStackSize = 128 * 1024;` -/
def kMinStackSize : Int := 128 * 1024

/-- The constant `static const int kMaxStackSize = 8 * 1024 * 1024;` -/
def kMaxStackSize : Int := 8 * 1024 * 1024

/-- The constant `static const int kMaxTimeoutMs = 40 * 1000;` -/
def kMaxTimeoutMs : Int := 40 * 1000

/-! ## Data model (coroutine_impl.h) -/

/-- The enumeration `typedef enum state_t { INIT, RUNNING, STOPPED }`. -/
inductive state_t where
  | INIT
  | RUNNING
  | STOPPED
  deriving DecidableEq, Repr

/-- The record `struct coroutine_stack_t` (the `coroutine` back pointer is never written by
this file and is left out). -/
structure coroutine_stack_t where
  size : Int
  start : Nat
  «end» : Int
  deriving DecidableEq, Repr

/-- The record `coroutine_attr_t`: only its `stack_size` field is read. -/
structure coroutine_attr_t where
  stack_size : Int
  deriving DecidableEq, Repr

/-- The function `static inline stack_t* alloc_stack(int size)`; `start` is the address the
inner `malloc` returned. -/
def alloc_stack (start : Nat) (size : Int) : coroutine_stack_t :=
  { size := size, start := start, «end» := start + size }

/-- Lines 38-49 of `create_env`: the local `stack_size` at the point where it is
handed to `alloc_stack`. -/
def create_env_stack_size (attr : Option coroutine_attr_t) : Int :=
  let stack_size : Int := match attr with
    | some a => a.stack_size
    | none => kMinStackSize
  let stack_size : Int :=
    if stack_size < kMinStackSize then kMinStackSize
    else if stack_size > kMaxStackSize then kMaxStackSize
    else stack_size
  if Int.land stack_size 0xFFF ≠ 0 then
    Int.land stack_size (Int.not 0xFFF) + 0x1000
  else stack_size

/-- Saved context handle of `context.h` (not part of the sources), as far as this
file drives it: zero-filled by `memset`, initialised by `context_init`, primed by
`context_make(&ctx, cotoutine_main, co, NULL)` with the coroutine `co` as the
trampoline argument, or holding the registers that `context_swap` stored. -/
inductive context_t where
  | zeroed
  | inited
  | entry (arg : Nat)
  | saved
  deriving DecidableEq, Repr

/-- The record `struct coroutine_t`.  `fun` is the function pointer (`none` is NULL), `env`
the owning environment, `save_buffer` the address of the save buffer.  The
fields `task` and `spec` are never touched by this file and are left out. -/
structure coroutine_t where
  «fun» : Option Nat
  env : Option Nat
  arg : Nat
  main : Bool
  state : state_t
  context : context_t
  stack_sp : Nat
  save_size : Nat
  save_buffer : Option Nat
  stack : Option coroutine_stack_t
  deriving DecidableEq, Repr

/-- The record `struct env_t`.  `callstack` is a `coroutine_t **`: `none` is NULL, otherwise
the slots of the array it points to (its capacity is not visible in the
sources).  The fields `main`, `pool` and `arg` are never touched by this file
and are left out. -/
structure env_t where
  callstack : Option (Nat → Nat)
  callstacksize : Nat
  epoll : Option Nat
  occupy : Option Nat
  pending : Option Nat

/-- The record `struct pollfd` of `<poll.h>`; the two event masks are bit sets. -/
structure pollfd where
  fd : Int
  events : Nat
  revents : Nat
  deriving DecidableEq, Repr

/-- The record `struct epoll_event` of `<sys/epoll.h>`: the mask and the tag
`data.ptr`, which this file only ever sets to `arg.items + i` (here the pair of
the address of `arg` and `i`). -/
structure epoll_event where
  events : Nat
  ptr : Option (Nat × Nat)
  deriving DecidableEq, Repr

/-- One registration held by the notification backend: the epoll descriptor, the
registered descriptor, the event mask and the tag `ev.data.ptr`, which is
`arg.items + i` for the poll context at address `arg`. -/
structure epoll_reg where
  epfd : Int
  fd : Int
  events : Nat
  ptr : Nat × Nat
  deriving DecidableEq, Repr

/-- The fields of `timer_item_t` that this file writes.  `prepare` and `process`
say whether the callback pointer was set to `preparePollEvent` respectively
`processPollEvent`. -/
structure timer_item_t where
  prepare : Bool
  process : Bool
  coroutine : Option Nat
  expire : Nat
  deriving DecidableEq, Repr

/-- Calls of the timer collaborator, in the order they were made.  A timer item
is named by the address of the poll context that holds it. -/
inductive timer_call where
  | addTimeout (item : Nat)
  | removeFromLink (item : Nat)
  | addTail (item : Nat)
  deriving DecidableEq, Repr

/-- The state the code reads and writes.
* `cos`, `envs`: heaps of `coroutine_t` and `env_t` records, a pointer is an index;
* `gEnv`, `pid`: the table `gEnv[]` and the value of `get_pid()` on the running thread;
* `mem`: byte memory holding stacks and save buffers;
* `transfers`: the calls `context_swap(&from->context, &to->context)` made so far;
* `regs`: the registrations of the notification backend;
* `pending_timers`, `active`: the pending-timers structure `ctx->timer` and the
  driving loop's active list, as lists of timer items named by their address;
* `timer_calls`: calls made to the timer collaborator;
* `pollfunc_calls`: the argument lists of the calls made through a `poll_fun_t`;
* `errno`: the C `errno`. -/
structure World where
  cos : List coroutine_t
  envs : List env_t
  gEnv : Nat → Option Nat
  pid : Nat
  mem : Nat → Nat
  transfers : List (Nat × Nat)
  regs : List epoll_reg
  pending_timers : List (Nat × timer_item_t)
  active : List Nat
  timer_calls : List timer_call
  pollfunc_calls : List (List pollfd × Nat × Int)
  errno : Int

/-- Store through a `coroutine_t *`. -/
def World.setCo (w : World) (p : Nat) (c : coroutine_t) : World :=
  { w with cos := w.cos.set p c }

/-- Store through an `env_t *`. -/
def World.setEnv (w : World) (p : Nat) (e : env_t) : World :=
  { w with envs := w.envs.set p e }

/-- The lifecycle state of the coroutine at `p`, if `p` points to one. -/
def World.stateOf (w : World) (p : Nat) : Option state_t :=
  (w.cos[p]?).map (fun c => c.state)

/-- The call stack of an environment as a sequence: the first `callstacksize`
slots of `callstack`, bottom first. -/
def env_t.stack (e : env_t) : Option (List Nat) :=
  e.callstack.map (fun cs => (List.range e.callstacksize).map cs)

/-- The call stack of the environment at `env`. -/
def World.stackOf (w : World) (env : Nat) : Option (List Nat) :=
  (w.envs[env]?).bind env_t.stack

/-! ## Scheduler (coroutine_impl.c, lines 19-175) -/

/-- The function `env_t* get_curr_thread_env()`: `gEnv[get_pid()]`; the value of
`get_pid()` is taken to lie inside the table. -/
def get_curr_thread_env (w : World) : Option Nat :=
  w.gEnv w.pid

/-- The function `create_env`: allocates a zero-filled `coroutine_t`, fills it and gives it a
stack of `create_env_stack_size attr` bytes.  Returns the new pointer. -/
def create_env (env : Option Nat) (attr : Option coroutine_attr_t) (func : Option Nat)
    (arg : Nat) (start : Nat) (w : World) : Nat × World :=
  let stack_size := create_env_stack_size attr
  let co : coroutine_t :=
    { «fun» := func, env := env, arg := arg, main := false, state := .INIT,
      context := .zeroed, stack_sp := 0, save_size := 0, save_buffer := none,
      stack := some (alloc_stack start stack_size) }
  (w.cos.length, { w with cos := w.cos ++ [co] })

/-- Modelled from the spec: `context_swap` of `context.h`, the transfer primitive
"saves the executing register/stack state into `from`, restores `to`, and
returns control at `to`'s last suspension point".  The embedding stores the
registers in `from` and records the transfer. -/
def context_swap (src dst : Nat) (w : World) : Option World := do
  let c ← w.cos[src]?
  let _ ← w.cos[dst]?
  let w := w.setCo src { c with context := .saved }
  some { w with transfers := w.transfers ++ [(src, dst)] }

/-- The function `coroutine_swap`, lines 97-107: the part that runs before control leaves
`curr`.  `sp` is the address of the local `c`. -/
def coroutine_swap (sp : Nat) (curr pending : Nat) (w : World) : Option World := do
  let env ← get_curr_thread_env w
  let c ← w.cos[curr]?
  let w := w.setCo curr { c with stack_sp := sp }
  let e ← w.envs[env]?
  let w := w.setEnv env { e with pending := none }
  let e ← w.envs[env]?
  let w := w.setEnv env { e with occupy := none }
  context_swap curr pending w

/-- The call `memcpy(dst, src, n)` on byte memory. -/
def memcpy (dst src n : Nat) (mem : Nat → Nat) : Nat → Nat :=
  fun a => if dst ≤ a ∧ a < dst + n then mem (src + (a - dst)) else mem a

/-- The function `coroutine_swap`, lines 109-120: the part that runs in the coroutine that
called `context_swap`, once control has been transferred back into it. -/
def coroutine_swap_return (w : World) : Option World := do
  let curr_env ← get_curr_thread_env w
  let e ← w.envs[curr_env]?
  match e.occupy, e.pending with
  | some update_occupy, some update_pending =>
    if update_occupy ≠ update_pending then do
      let p ← w.cos[update_pending]?
      match p.save_buffer with
      | some buf =>
        if p.save_size > 0 then
          some { w with mem := memcpy p.stack_sp buf p.save_size w.mem }
        else some w
      | none => some w
    else some w
  | _, _ => some w

/-- The function `yield_env`, up to the transfer.  With fewer than two entries the read
`callstack[size - 2]` is out of bounds. -/
def yield_env (sp : Nat) (env : Nat) (w : World) : Option World := do
  let e ← w.envs[env]?
  let cs ← e.callstack
  let size := e.callstacksize
  if size < 2 then none
  else
    let last := cs (size - 2)
    let curr := cs (size - 1)
    let w := w.setEnv env { e with callstacksize := size - 1 }
    coroutine_swap sp curr last w

/-- The function `coroutine_resume`, up to the transfer.  With an empty call stack the read
`callstack[callstacksize - 1]` is out of bounds. -/
def coroutine_resume (sp : Nat) (co : Nat) (w : World) : Option World := do
  let c ← w.cos[co]?
  let env ← c.env
  let e ← w.envs[env]?
  let cs ← e.callstack
  if e.callstacksize < 1 then none
  else
    let curr := cs (e.callstacksize - 1)
    let w := if c.state ≠ .RUNNING then
        w.setCo co { c with context := .entry co, state := .RUNNING }
      else w
    let w := w.setEnv env { e with callstack := some (Function.update cs e.callstacksize co),
                                   callstacksize := e.callstacksize + 1 }
    coroutine_swap sp curr co w

/-- The function `coroutine_yield`. -/
def coroutine_yield (sp : Nat) (co : Nat) (w : World) : Option World := do
  let c ← w.cos[co]?
  let env ← c.env
  yield_env sp env w

/-- The function `cotoutine_main`, the trampoline.  `app f arg` is what a call of the
application function at `f` with argument `arg` does to the state between its
entry and its return (`none` if it does not return). -/
def cotoutine_main (app : Nat → Nat → World → Option World) (sp : Nat) (arg : Nat)
    (w : World) : Option World := do
  let co := arg
  let c ← w.cos[co]?
  let returned : Option World :=
    match c.«fun» with
    | some f => app f c.arg w
    | none => some w
  let w ← returned
  let c ← w.cos[co]?
  let w := w.setCo co { c with state := .STOPPED }
  let c ← w.cos[co]?
  let env ← c.env
  yield_env sp env w

/-- The functions `curr_coroutine` `get_curr_coroutine`: the top of the call stack. -/
def curr_coroutine (env : Nat) (w : World) : Option Nat := do
  let e ← w.envs[env]?
  let cs ← e.callstack
  if e.callstacksize < 1 then none else some (cs (e.callstacksize - 1))

/-- The function `coroutine_self`: NULL (inner `none`) when the thread has no environment. -/
def coroutine_self (w : World) : Option (Option Nat) :=
  match get_curr_thread_env w with
  | none => some none
  | some env => (curr_coroutine env w).map some

/-! ## Poll adapter (coroutine_impl.c, lines 177-337) -/

/-- Event bits of `<poll.h>` on Linux. -/
def POLLIN : Nat := 0x001
/-- Event bit of `<poll.h>`. -/
def POLLOUT : Nat := 0x004
/-- Event bit of `<poll.h>`. -/
def POLLERR : Nat := 0x008
/-- Event bit of `<poll.h>`. -/
def POLLHUP : Nat := 0x010
/-- Event bit of `<poll.h>`. -/
def POLLRDNORM : Nat := 0x040
/-- Event bit of `<poll.h>`. -/
def POLLWRNORM : Nat := 0x100
/-- Event bits of `<sys/epoll.h>` on Linux. -/
def EPOLLIN : Nat := 0x001
/-- Event bit of `<sys/epoll.h>`. -/
def EPOLLOUT : Nat := 0x004
/-- Event bit of `<sys/epoll.h>`. -/
def EPOLLERR : Nat := 0x008
/-- Event bit of `<sys/epoll.h>`. -/
def EPOLLHUP : Nat := 0x010
/-- Event bit of `<sys/epoll.h>`. -/
def EPOLLRDNORM : Nat := 0x040
/-- Event bit of `<sys/epoll.h>`. -/
def EPOLLWRNORM : Nat := 0x100
/-- Error number of `<errno.h>` on Linux: operation not permitted. -/
def EPERM : Int := 1
/-- Error number of `<errno.h>` on Linux: invalid argument. -/
def EINVAL : Int := 22

/-- The record `poll_item_t`: `self` is `arg.fds + self`, `poll` the address of
the poll context. -/
structure poll_item_t where
  self : Nat
  poll : Nat
  time : timer_item_t
  event : epoll_event
  deriving DecidableEq, Repr

/-- The record `poll_context_t`, the local `arg` of `poll_inner`. -/
structure poll_context_t where
  fds : List pollfd
  nfds : Nat
  time : timer_item_t
  items : List poll_item_t
  allEventDetatch : Bool
  raise_cnt : Int
  deriving DecidableEq, Repr

/-- The record `epoll_context_t` of `epoll.h`: `fd` is the epoll descriptor;
`timer` is the pending-timers structure `World.pending_timers`. -/
structure epoll_context_t where
  fd : Int
  deriving DecidableEq, Repr

/-- The type `poll_fun_t`: gets the descriptor array, its length and the timeout,
returns an `int` and may have written the array. -/
abbrev poll_fun_t := List pollfd → Nat → Int → Int × List pollfd

/-- The decisions of the two collaborators that can refuse a request.
`epoll_ctl_add regs epfd fd` is `none` when the backend accepts the registration
and the error number it sets otherwise; `addTimeout pending item now` is the
return value of `addTimeout`. -/
structure Backend where
  epoll_ctl_add : List epoll_reg → Int → Int → Option Int
  addTimeout : List (Nat × timer_item_t) → timer_item_t → Nat → Int

/-- The function `PollEvent2Epoll`. -/
def PollEvent2Epoll (events : Nat) : Nat :=
  let e := 0
  let e := if events &&& POLLIN ≠ 0 then e ||| EPOLLIN else e
  let e := if events &&& POLLOUT ≠ 0 then e ||| EPOLLOUT else e
  let e := if events &&& POLLHUP ≠ 0 then e ||| EPOLLHUP else e
  let e := if events &&& POLLERR ≠ 0 then e ||| EPOLLERR else e
  let e := if events &&& POLLRDNORM ≠ 0 then e ||| EPOLLRDNORM else e
  let e := if events &&& POLLWRNORM ≠ 0 then e ||| EPOLLWRNORM else e
  e

/-- The function `EpollEvent2Poll`. -/
def EpollEvent2Poll (events : Nat) : Nat :=
  let e := 0
  let e := if events &&& EPOLLIN ≠ 0 then e ||| POLLIN else e
  let e := if events &&& EPOLLOUT ≠ 0 then e ||| POLLOUT else e
  let e := if events &&& EPOLLHUP ≠ 0 then e ||| POLLHUP else e
  let e := if events &&& EPOLLERR ≠ 0 then e ||| POLLERR else e
  let e := if events &&& EPOLLRDNORM ≠ 0 then e ||| POLLRDNORM else e
  let e := if events &&& EPOLLWRNORM ≠ 0 then e ||| POLLWRNORM else e
  e

/-- Modelled from the spec: `do_epoll_ctl(epfd, EPOLL_CTL_ADD, fd, &ev)` of
`epoll.h`, "register(handle, descriptor, eventMask, opaqueTag), fails with a
distinguished error for select descriptor kinds".  On success the registration
is held by the backend and 0 is returned; on failure `errno` is set and -1 is
returned. -/
def do_epoll_ctl_add (B : Backend) (epfd fd : Int) (ev : epoll_event) (tag : Nat × Nat)
    (w : World) : Int × World :=
  match B.epoll_ctl_add w.regs epfd fd with
  | none =>
    (0, { w with regs := w.regs ++ [{ epfd := epfd, fd := fd, events := ev.events, ptr := tag }] })
  | some e => (-1, { w with errno := e })

/-- Modelled from the spec: `do_epoll_ctl(epfd, EPOLL_CTL_DEL, fd, &ev)` of
`epoll.h`, "deregister(handle, descriptor)": the backend drops what it holds
for the descriptor.  The code ignores the return value. -/
def do_epoll_ctl_del (epfd fd : Int) (w : World) : World :=
  { w with regs := w.regs.filter (fun r => ¬ (r.epfd = epfd ∧ r.fd = fd)) }

/-- Modelled from the spec: `addTimeout(ctx->timer, &arg.time, now)`, "insert
(timerStructure, item, nowMs) fails if the deadline cannot be scheduled".  The
item at address `item` joins the pending timers when 0 is returned. -/
def addTimeout (B : Backend) (item : Nat) (t : timer_item_t) (now : Nat) (w : World) :
    Int × World :=
  let ret := B.addTimeout w.pending_timers t now
  let w := { w with timer_calls := w.timer_calls ++ [.addTimeout item] }
  if ret = 0 then (ret, { w with pending_timers := w.pending_timers ++ [(item, t)] })
  else (ret, w)

/-- Modelled from the spec: `removeFromLink(&item)`, "removeFromPending(item)":
the item leaves the list it is linked into. -/
def removeFromLink (item : Nat) (w : World) : World :=
  { w with
    pending_timers := w.pending_timers.filter (fun p => p.1 ≠ item),
    active := w.active.filter (fun a => a ≠ item),
    timer_calls := w.timer_calls ++ [.removeFromLink item] }

/-- Modelled from the spec: `addTail(active, &item)`, "appendToActiveList(list,
item)". -/
def addTail (item : Nat) (w : World) : World :=
  { w with active := w.active ++ [item],
           timer_calls := w.timer_calls ++ [.addTail item] }

/-- The function `processPollEvent`: `coroutine_resume(item->coroutine)`, up to
the transfer. -/
def processPollEvent (sp : Nat) (item : timer_item_t) (w : World) : Option World := do
  let co ← item.coroutine
  coroutine_resume sp co w

/-- The function `preparePollEvent`, called for item `i` of the poll context at
address `argp` (that is, with `item->arg == arg.items + i`) and backend event `e`. -/
def preparePollEvent (argp : Nat) (i : Nat) (e : epoll_event) (arg : poll_context_t)
    (w : World) : Option (poll_context_t × World) := do
  let poll_item ← arg.items[i]?
  let f ← arg.fds[poll_item.self]?
  let f : pollfd := { f with revents := EpollEvent2Poll e.events }
  let poll := { arg with fds := arg.fds.set poll_item.self f }
  let poll := { poll with raise_cnt := poll.raise_cnt + 1 }
  if !poll.allEventDetatch then
    let poll := { poll with allEventDetatch := true }
    let w := removeFromLink argp w
    let w := addTail argp w
    some (poll, w)
  else some (poll, w)

/-- Readiness callbacks delivered one after the other: each entry is the item
index and the backend event of one call of `preparePollEvent`. -/
def deliver (argp : Nat) : List (Nat × epoll_event) → poll_context_t → World →
    Option (poll_context_t × World)
  | [], arg, w => some (arg, w)
  | (i, e) :: rest, arg, w =>
    match preparePollEvent argp i e arg w with
    | some (arg, w) => deliver argp rest arg w
    | none => none

/-- The registration loop of `poll_inner`, lines 275-299, from index `i` on;
the first argument list holds `fds[i], fds[i+1], ...`.  `Except.error` is the
early return at line 295 with the value and the array the fallback produced. -/
def poll_inner_add (B : Backend) (epfd : Int) (argp : Nat) (self : Option Nat)
    (fds : List pollfd) (nfds : Nat) (timeout : Int) (pollfunc : Option poll_fun_t) :
    List pollfd → Nat → poll_context_t → World →
      Except (Int × List pollfd) poll_context_t × World
  | [], _, arg, w => (.ok arg, w)
  | f :: rest, i, arg, w =>
    let item : poll_item_t :=
      { self := i, poll := argp,
        time := { prepare := true, process := false, coroutine := self, expire := 0 },
        event := { events := 0, ptr := none } }
    if f.fd > -1 then
      let ev : epoll_event := { events := PollEvent2Epoll f.events, ptr := some (argp, i) }
      let arg := { arg with items := arg.items.set i { item with event := ev } }
      let (ret, w) := do_epoll_ctl_add B epfd f.fd ev (argp, i) w
      if ret < 0 ∧ w.errno = EPERM ∧ nfds = 1 then
        match pollfunc with
        | some pf =>
          let w := { w with pollfunc_calls := w.pollfunc_calls ++ [(fds, nfds, timeout)] }
          (.error (pf fds nfds timeout), w)
        | none => poll_inner_add B epfd argp self fds nfds timeout pollfunc rest (i + 1) arg w
      else poll_inner_add B epfd argp self fds nfds timeout pollfunc rest (i + 1) arg w
    else
      let arg := { arg with items := arg.items.set i item }
      poll_inner_add B epfd argp self fds nfds timeout pollfunc rest (i + 1) arg w

/-- What `poll_inner` has done when it stops running for the first time: it has
returned (`ret` and the caller's array), or it is suspended in `yield_env` with
its local `arg`. -/
inductive poll_setup where
  | returned (ret : Int) (fds : List pollfd)
  | suspended (arg : poll_context_t)
  deriving DecidableEq, Repr

/-- The function `poll_inner`, lines 249-317: from entry to the first point where
it stops running.  `argp` is the address of the local `arg`, `sp` the stack
address used by the switch, `now` the value of `GetTickMS()`.  Reading `fds[i]`
for `i < nfds` beyond the array is undefined. -/
def poll_inner_setup (B : Backend) (ctx : epoll_context_t) (fds : List pollfd) (nfds : Nat)
    (timeout : Int) (pollfunc : Option poll_fun_t) (argp sp now : Nat) (w : World) :
    Option (poll_setup × World) := do
  let timeout := if timeout > kMaxTimeoutMs then kMaxTimeoutMs else timeout
  let epfd := ctx.fd
  let self ← coroutine_self w
  if fds.length < nfds then none
  else
    let zero_time : timer_item_t :=
      { prepare := false, process := false, coroutine := none, expire := 0 }
    let arg : poll_context_t :=
      { fds := List.replicate nfds { fd := 0, events := 0, revents := 0 },
        nfds := nfds,
        time := { zero_time with process := true, coroutine := self },
        items := List.replicate nfds
          { self := 0, poll := 0, time := zero_time, event := { events := 0, ptr := none } },
        allEventDetatch := false,
        raise_cnt := 0 }
    match poll_inner_add B epfd argp self fds nfds timeout pollfunc (fds.take nfds) 0 arg w with
    | (.error (ret, fds), w) => some (.returned ret fds, w)
    | (.ok arg, w) =>
      let arg := { arg with time := { arg.time with
                      expire := (((now : Int) + timeout) % 2 ^ 64).toNat } }
      let (ret, w) := addTimeout B argp arg.time now w
      if ret ≠ 0 then
        some (.returned (-1) fds, { w with errno := EINVAL })
      else do
        let env ← get_curr_thread_env w
        let w ← yield_env sp env w
        some (.suspended arg, w)

/-- The teardown loop of `poll_inner`, lines 320-327, from index `i` on; the
first argument list holds `fds[i], fds[i+1], ...` and the result is that part of
the caller's array after the loop. -/
def poll_inner_del (epfd : Int) (arg : poll_context_t) :
    List pollfd → Nat → World → Option (List pollfd × World)
  | [], _, w => some ([], w)
  | f :: rest, i, w => do
    let w := if f.fd > -1 then do_epoll_ctl_del epfd f.fd w else w
    let a ← arg.fds[i]?
    let (rest, w) ← poll_inner_del epfd arg rest (i + 1) w
    some ({ f with revents := a.revents } :: rest, w)

/-- The function `poll_inner`, lines 319-336: from the point where the caller
runs again after `yield_env` to the return. -/
def poll_inner_finish (ctx : epoll_context_t) (fds : List pollfd) (nfds : Nat)
    (arg : poll_context_t) (argp : Nat) (w : World) : Option (Int × List pollfd × World) := do
  let epfd := ctx.fd
  let w := removeFromLink argp w
  let (head, w) ← poll_inner_del epfd arg (fds.take nfds) 0 w
  let raise_cnt := arg.raise_cnt
  some (raise_cnt, head ++ fds.drop nfds, w)

/-- One whole call of `poll_inner`.  When the call suspends, the readiness
callbacks `events` run while it is suspended, then `processPollEvent` runs for
the call's timer item (from a stack at `sp2`) and transfers control back, the
caller comes back out of `coroutine_swap`, and the call finishes. -/
def poll_inner (B : Backend) (ctx : epoll_context_t) (fds : List pollfd) (nfds : Nat)
    (timeout : Int) (pollfunc : Option poll_fun_t) (argp sp now sp2 : Nat)
    (events : List (Nat × epoll_event)) (w : World) :
    Option (Int × List pollfd × World) := do
  let (r, w) ← poll_inner_setup B ctx fds nfds timeout pollfunc argp sp now w
  match r with
  | .returned ret fds => some (ret, fds, w)
  | .suspended arg =>
    let (arg, w) ← deliver argp events arg w
    let w ← processPollEvent sp2 arg.time w
    let w ← coroutine_swap_return w
    poll_inner_finish ctx fds nfds arg argp w

/-- What a switch between coroutines leaves alone: the shape of the heaps, the
thread's environment, the owner and the function of every coroutine, memory,
the backend and the timers. -/
structure SwitchFrame (w w' : World) : Prop where
  cos_length : w'.cos.length = w.cos.length
  envs_length : w'.envs.length = w.envs.length
  gEnv : w'.gEnv = w.gEnv
  pid : w'.pid = w.pid
  mem : w'.mem = w.mem
  regs : w'.regs = w.regs
  pending_timers : w'.pending_timers = w.pending_timers
  active : w'.active = w.active
  timer_calls : w'.timer_calls = w.timer_calls
  pollfunc_calls : w'.pollfunc_calls = w.pollfunc_calls
  errno : w'.errno = w.errno
  co_env : ∀ p : Nat, (w'.cos[p]?).map (fun c => c.env) = (w.cos[p]?).map (fun c => c.env)
  co_fun : ∀ p : Nat, (w'.cos[p]?).map (fun c => (c.«fun», c.arg))
    = (w.cos[p]?).map (fun c => (c.«fun», c.arg))

/-! ## Example states -/

/-- A coroutine as `create_env` leaves it, owned by environment 0. -/
def co_example («fun» : Option Nat) (state : state_t) : coroutine_t :=
  { «fun» := «fun», env := some 0, arg := 0, main := false, state := state,
    context := .zeroed, stack_sp := 0, save_size := 0, save_buffer := none,
    stack := some (alloc_stack 0 131072) }

/-- A thread (pid 0) whose environment 0 has the main coroutine 0 on its call
stack, and two further coroutines 1 and 2 in state INIT; coroutine 1 has the
function pointer 7, coroutine 2 has none. -/
def world_example : World :=
  { cos := [{ co_example none .INIT with main := true, context := .inited },
            co_example (some 7) .INIT, co_example none .INIT],
    envs := [{ callstack := some (fun _ => 0), callstacksize := 1, epoll := some 0,
               occupy := none, pending := none }],
    gEnv := fun p => if p = 0 then some 0 else none,
    pid := 0,
    mem := fun _ => 0,
    transfers := [],
    regs := [],
    pending_timers := [],
    active := [],
    timer_calls := [],
    pollfunc_calls := [],
    errno := 0 }

/-- A resume of `co` that enters the trampoline: `coroutine_resume(co)` up to the
transfer; the transfer enters a context primed by `context_make`, so
`cotoutine_main` runs with the primed argument, through its final `yield_env`;
that transfer brings control back into the resumer, which runs the rest of its
`coroutine_swap`.  A transfer into a context that was saved in the middle of a
run continues code that is not part of this file (`none`). -/
def resume_and_run (app : Nat → Nat → World → Option World) (sp sp' : Nat) (co : Nat)
    (w : World) : Option World := do
  let w ← coroutine_resume sp co w
  let c ← w.cos[co]?
  match c.context with
  | .entry arg =>
    let w ← cotoutine_main app sp' arg w
    coroutine_swap_return w
  | _ => none

/-- The state in which the application function called by the trampoline of
`co` has returned without having yielded: the call stack of `env` is as it was
on entry, `co` still belongs to `env`, and nothing was taken from the heaps or
from the thread's environment table. -/
structure ReturnedUnyielded (env co : Nat) (v v' : World) : Prop where
  stack : v'.stackOf env = v.stackOf env
  co_env : (v'.cos[co]?).map (fun c => c.env) = (v.cos[co]?).map (fun c => c.env)
  cos_length : v.cos.length ≤ v'.cos.length
  envs_length : v.envs.length ≤ v'.envs.length
  curr_env : get_curr_thread_env v' = get_curr_thread_env v

/-- The state of `world_example` after `coroutine_resume(1)`, at the transfer. -/
def world_resumed : World :=
  (coroutine_resume 10 1 world_example).getD world_example

/-- The scheduler part of the state is the same in both states. -/
structure SchedSame (w w' : World) : Prop where
  cos : w'.cos = w.cos
  envs : w'.envs = w.envs
  gEnv : w'.gEnv = w.gEnv
  pid : w'.pid = w.pid
  mem : w'.mem = w.mem
  transfers : w'.transfers = w.transfers

/-- The timers are the same in both states and no call went to the timer
collaborator in between. -/
structure TimersSame (w w' : World) : Prop where
  pending_timers : w'.pending_timers = w.pending_timers
  active : w'.active = w.active
  timer_calls : w'.timer_calls = w.timer_calls

/-- Whether `poll_inner` got as far as suspending its caller. -/
def poll_setup.isSuspended : poll_setup → Bool
  | .suspended _ => true
  | .returned _ _ => false

/-- A backend that accepts every registration and a timer structure that
accepts every deadline. -/
def backend_accepting : Backend :=
  { epoll_ctl_add := fun _ _ _ => none, addTimeout := fun _ _ _ => 0 }

/-- A backend that answers every registration with the error number 9 (EBADF),
with a timer structure that accepts every deadline. -/
def backend_rejecting : Backend :=
  { epoll_ctl_add := fun _ _ _ => some 9, addTimeout := fun _ _ _ => 0 }

/-- A backend that answers every registration with EPERM. -/
def backend_eperm : Backend :=
  { epoll_ctl_add := fun _ _ _ => some EPERM, addTimeout := fun _ _ _ => 0 }

/-- A backend that accepts every registration, with a timer structure that
refuses every deadline. -/
def backend_timer_refusing : Backend :=
  { epoll_ctl_add := fun _ _ _ => none, addTimeout := fun _ _ _ => -1 }

/-- A descriptor array with the one entry `{ fd = 5, events = POLLIN }`. -/
def fds_example : List pollfd := [{ fd := 5, events := POLLIN, revents := 0 }]

/-- A fallback that reports one ready descriptor and marks it readable. -/
def pollfunc_example : poll_fun_t :=
  fun fds _ _ => (1, fds.map (fun f => { f with revents := POLLIN }))

/-- What the registration loop leaves alone in `arg`, and what it establishes:
item `j` points to `arg.fds + j` for every index the loop went through. -/
structure LoopResult (i n : Nat) (arg arg' : poll_context_t) : Prop where
  fds : arg'.fds = arg.fds
  nfds : arg'.nfds = arg.nfds
  time : arg'.time = arg.time
  allEventDetatch : arg'.allEventDetatch = arg.allEventDetatch
  raise_cnt : arg'.raise_cnt = arg.raise_cnt
  items_length : arg'.items.length = arg.items.length
  below : ∀ j : Nat, j < i → arg'.items[j]? = arg.items[j]?
  self : ∀ j : Nat, i ≤ j → j < i + n → j < arg.items.length →
    ∃ it, arg'.items[j]? = some it ∧ it.self = j

/-- A poll context as `poll_inner` has built it when it suspends: nothing has
fired yet, there is one item and one zero-filled descriptor copy per
descriptor, item `j` points to `arg.fds + j`, and the call's timer item resumes
the caller through `processPollEvent`. -/
structure FreshContext (nfds : Nat) (caller : Option Nat) (arg : poll_context_t) : Prop where
  raise_cnt : arg.raise_cnt = 0
  allEventDetatch : arg.allEventDetatch = false
  nfds_eq : arg.nfds = nfds
  items_length : arg.items.length = nfds
  fds_eq : arg.fds = List.replicate nfds { fd := 0, events := 0, revents := 0 }
  item_self : ∀ j : Nat, j < nfds → ∃ it, arg.items[j]? = some it ∧ it.self = j
  coroutine : arg.time.coroutine = caller
  process : arg.time.process = true

/-- The poll context of a call with one descriptor, as built by `poll_inner`
for the caller 1 at address 100. -/
def arg_example : poll_context_t :=
  { fds := [{ fd := 0, events := 0, revents := 0 }],
    nfds := 1,
    time := { prepare := false, process := true, coroutine := some 1, expire := 1000 },
    items := [{ self := 0, poll := 100,
                time := { prepare := true, process := false, coroutine := some 1, expire := 0 },
                event := { events := EPOLLIN, ptr := some (100, 0) } }],
    allEventDetatch := false,
    raise_cnt := 0 }

/-- Two readiness callbacks for item 0 of `arg_example`: first with the backend
mask EPOLLIN, then with EPOLLOUT together with the bit 0x002 (EPOLLPRI), which
`EpollEvent2Poll` does not translate. -/
def events_example : List (Nat × epoll_event) :=
  [(0, { events := EPOLLIN, ptr := some (100, 0) }),
   (0, { events := EPOLLOUT ||| 0x002, ptr := some (100, 0) })]

/-! # Properties -/

/-! ## Stack size (create_env, lines 38-49) -/

theorem land_0xFFF (n : Nat) : Int.land (n : Int) 0xFFF = ((n % 4096 : Nat) : Int) := by
  show ((n &&& 4095 : Nat) : Int) = _
  have h := Nat.and_pow_two_sub_one_eq_mod n 12
  norm_num at h
  rw [h]

theorem ldiff_0xFFF (n : Nat) : Nat.ldiff n 4095 = n - n % 4096 := by
  apply Nat.eq_of_testBit_eq
  intro i
  rw [Nat.testBit_ldiff]
  have h1 : n - n % 4096 = (n >>> 12) <<< 12 := by
    rw [Nat.shiftRight_eq_div_pow, Nat.shiftLeft_eq]
    have := Nat.div_add_mod n 4096
    norm_num
    omega
  have h2 : (4095 : Nat) = 2 ^ 12 - 1 := by norm_num
  rw [h1, Nat.testBit_shiftLeft, Nat.testBit_shiftRight, h2, Nat.testBit_two_pow_sub_one]
  by_cases h : i < 12
  · simp [h]
  · have h3 : 12 + (i - 12) = i := by omega
    simp [h, h3]
    intro h4
    omega

theorem land_not_0xFFF (n : Nat) :
    Int.land (n : Int) (Int.not 0xFFF) = ((n - n % 4096 : Nat) : Int) := by
  show ((Nat.ldiff n 4095 : Nat) : Int) = _
  rw [ldiff_0xFFF]

/-- The value of `create_env_stack_size` in arithmetic terms: clamp, then round
up to a multiple of 4096. -/
theorem create_env_stack_size_eq (s : Int) :
    create_env_stack_size (some ⟨s⟩)
      = (min (max s 131072) 8388608 + 4095) / 4096 * 4096 := by
  obtain ⟨n, hn, hlo, hhi⟩ : ∃ n : Nat, (n : Int) = min (max s 131072) 8388608 ∧
      131072 ≤ n ∧ n ≤ 8388608 := by
    refine ⟨(min (max s 131072) 8388608).toNat, ?_, ?_, ?_⟩ <;> omega
  have hc : (if s < kMinStackSize then kMinStackSize
      else if s > kMaxStackSize then kMaxStackSize else s) = (n : Int) := by
    simp only [kMinStackSize, kMaxStackSize]
    split_ifs <;> omega
  simp only [create_env_stack_size, hc, land_0xFFF, land_not_0xFFF, ← hn]
  split_ifs with h <;> omega

/-- C1 (as stated, refuted): the claim lists 200000 -> 204800 among its
witnesses, but for a request of 200000 bytes `create_env` hands 200704 to
`alloc_stack`, which is the least multiple of 4096 above 200000. -/
theorem create_env_stack_size_200000 :
    create_env_stack_size (some ⟨200000⟩) = 200704 ∧
    create_env_stack_size (some ⟨200000⟩) ≠ 204800 := by
  rw [create_env_stack_size_eq]; norm_num

/-- C1 (amended): for every requested size `s`, the size `create_env` hands to
`alloc_stack` (and which ends up in the new coroutine's stack record) is the
least multiple of 4096 that is at least `min (max s 131072) 8388608`; it lies in
`[131072, 8388608]`; the requests 1000, 10485760 and 200000 give 131072, 8388608
and 200704; without an attribute the size is 131072. -/
theorem create_env_stack_size_spec (s : Int) :
    (∀ (env : Option Nat) (f : Option Nat) (a start : Nat) (w : World),
      ((create_env env (some ⟨s⟩) f a start w).2.cos[
            (create_env env (some ⟨s⟩) f a start w).1]?).map (fun c => c.stack)
        = some (some (alloc_stack start (create_env_stack_size (some ⟨s⟩)))) ∧
      (alloc_stack start (create_env_stack_size (some ⟨s⟩))).size
        = create_env_stack_size (some ⟨s⟩)) ∧
    (4096 ∣ create_env_stack_size (some ⟨s⟩) ∧
      min (max s 131072) 8388608 ≤ create_env_stack_size (some ⟨s⟩) ∧
      ∀ k : Int, 4096 ∣ k → min (max s 131072) 8388608 ≤ k →
        create_env_stack_size (some ⟨s⟩) ≤ k) ∧
    131072 ≤ create_env_stack_size (some ⟨s⟩) ∧
    create_env_stack_size (some ⟨s⟩) ≤ 8388608 ∧
    create_env_stack_size (some ⟨1000⟩) = 131072 ∧
    create_env_stack_size (some ⟨10485760⟩) = 8388608 ∧
    create_env_stack_size (some ⟨200000⟩) = 200704 ∧
    create_env_stack_size none = 131072 := by
  refine ⟨?_, ⟨?_, ?_, ?_⟩, ?_, ?_, ?_, ?_, ?_, ?_⟩
  · intro env f a start w
    simp [create_env, alloc_stack]
  · rw [create_env_stack_size_eq]
    exact Dvd.intro_left _ rfl
  · rw [create_env_stack_size_eq]; omega
  · intro k hk hle
    rw [create_env_stack_size_eq]
    obtain ⟨q, rfl⟩ := hk
    omega
  · rw [create_env_stack_size_eq]; omega
  · rw [create_env_stack_size_eq]; omega
  · rw [create_env_stack_size_eq]; norm_num
  · rw [create_env_stack_size_eq]; norm_num
  · rw [create_env_stack_size_eq]; norm_num
  · decide

/-! ## Switching (coroutine_swap, yield_env, coroutine_resume) -/

theorem context_swap_eq (src dst : Nat) (w : World) (c : coroutine_t)
    (hc : w.cos[src]? = some c) (hd : dst < w.cos.length) :
    context_swap src dst w = some { w with
      cos := w.cos.set src { c with context := .saved },
      transfers := w.transfers ++ [(src, dst)] } := by
  have hd' : w.cos[dst]? = some w.cos[dst] := List.getElem?_eq_getElem hd
  simp [context_swap, hc, hd', World.setCo]

theorem coroutine_swap_eq (sp curr pending env : Nat) (w : World) (c : coroutine_t) (e : env_t)
    (henv : get_curr_thread_env w = some env) (hc : w.cos[curr]? = some c)
    (he : w.envs[env]? = some e) (hp : pending < w.cos.length) :
    coroutine_swap sp curr pending w = some { w with
      cos := w.cos.set curr { c with stack_sp := sp, context := .saved },
      envs := w.envs.set env { e with pending := none, occupy := none },
      transfers := w.transfers ++ [(curr, pending)] } := by
  have hcl : curr < w.cos.length := (List.getElem?_eq_some.mp hc).1
  have hel : env < w.envs.length := (List.getElem?_eq_some.mp he).1
  unfold coroutine_swap
  simp only [henv, hc, he, World.setCo, World.setEnv, Option.bind_eq_bind, Option.some_bind,
    List.getElem?_set_self hel]
  rw [context_swap_eq curr pending _ { c with stack_sp := sp }]
  · simp
  · simp [List.getElem?_set_self hcl]
  · simpa using hp

theorem range_map_update (cs : Nat → Nat) (n v : Nat) :
    (List.range (n + 1)).map (Function.update cs n v) = (List.range n).map cs ++ [v] := by
  rw [List.range_succ, List.map_append]
  congr 1
  · apply List.map_congr_left
    intro i hi
    have : i ≠ n := Nat.ne_of_lt (List.mem_range.mp hi)
    simp [Function.update, this]
  · simp

/-- Reading a call stack given as a sequence with a known top. -/
theorem stackOf_top {w : World} {env : Nat} {st : List Nat} {A : Nat}
    (h : w.stackOf env = some (st ++ [A])) :
    ∃ e cs, w.envs[env]? = some e ∧ e.callstack = some cs ∧
      e.callstacksize = st.length + 1 ∧ cs st.length = A ∧
      (List.range st.length).map cs = st := by
  unfold World.stackOf at h
  cases he : w.envs[env]? with
  | none => simp [he] at h
  | some e =>
    simp only [he, Option.some_bind, env_t.stack] at h
    cases hcs : e.callstack with
    | none => simp [hcs] at h
    | some cs =>
      simp only [hcs, Option.map_some', Option.some.injEq] at h
      have hlen : e.callstacksize = st.length + 1 := by
        have := congrArg List.length h
        simpa using this
      rw [hlen, List.range_succ, List.map_append] at h
      have h1 := List.append_inj_left' h (by simp)
      have h2 := List.append_inj_right' h (by simp)
      exact ⟨e, cs, rfl, hcs, hlen, by simpa using h2, h1⟩

theorem stackOf_of_env {w : World} {env : Nat} {e : env_t} {cs : Nat → Nat}
    (he : w.envs[env]? = some e) (hcs : e.callstack = some cs) :
    w.stackOf env = some ((List.range e.callstacksize).map cs) := by
  simp [World.stackOf, he, env_t.stack, hcs]

theorem map_getElem?_set {α β : Type} (l : List α) (i p : Nat) (a c : α) (f : α → β)
    (h : l[i]? = some c) (hf : f a = f c) :
    ((l.set i a)[p]?).map f = (l[p]?).map f := by
  by_cases hp : i = p
  · subst hp
    have hi : i < l.length := (List.getElem?_eq_some.mp h).1
    rw [List.getElem?_set_self hi, h]
    simp [hf]
  · rw [List.getElem?_set_ne hp]

theorem switchFrame_refl (w : World) : SwitchFrame w w :=
  ⟨rfl, rfl, rfl, rfl, rfl, rfl, rfl, rfl, rfl, rfl, rfl, fun _ => rfl, fun _ => rfl⟩

theorem switchFrame_trans {a b c : World} (h1 : SwitchFrame a b) (h2 : SwitchFrame b c) :
    SwitchFrame a c :=
  ⟨h2.cos_length.trans h1.cos_length, h2.envs_length.trans h1.envs_length,
   h2.gEnv.trans h1.gEnv, h2.pid.trans h1.pid, h2.mem.trans h1.mem, h2.regs.trans h1.regs,
   h2.pending_timers.trans h1.pending_timers, h2.active.trans h1.active,
   h2.timer_calls.trans h1.timer_calls, h2.pollfunc_calls.trans h1.pollfunc_calls,
   h2.errno.trans h1.errno, fun p => (h2.co_env p).trans (h1.co_env p),
   fun p => (h2.co_fun p).trans (h1.co_fun p)⟩

theorem switchFrame_curr_env {w w' : World} (h : SwitchFrame w w') :
    get_curr_thread_env w' = get_curr_thread_env w := by
  simp [get_curr_thread_env, h.gEnv, h.pid]

/-- The switch-out half of `coroutine_swap`: it succeeds when the thread has an
environment and both coroutines exist; it records the transfer, clears
`occupy` and `pending`, and changes neither a call stack nor a lifecycle state. -/
theorem coroutine_swap_spec (sp a b ce : Nat) (w : World)
    (hcur : get_curr_thread_env w = some ce) (hce : ce < w.envs.length)
    (ha : a < w.cos.length) (hb : b < w.cos.length) :
    ∃ w', coroutine_swap sp a b w = some w' ∧
      w'.transfers = w.transfers ++ [(a, b)] ∧ SwitchFrame w w' ∧
      (∀ x, w'.stackOf x = w.stackOf x) ∧ (∀ p, w'.stateOf p = w.stateOf p) ∧
      (∃ e', w'.envs[ce]? = some e' ∧ e'.occupy = none ∧ e'.pending = none) := by
  have hc : w.cos[a]? = some w.cos[a] := List.getElem?_eq_getElem ha
  have he : w.envs[ce]? = some w.envs[ce] := List.getElem?_eq_getElem hce
  refine ⟨_, coroutine_swap_eq sp a b ce w _ _ hcur hc he hb, rfl, ?_, ?_, ?_, ?_⟩
  · refine ⟨by simp, by simp, rfl, rfl, rfl, rfl, rfl, rfl, rfl, rfl, rfl, ?_, ?_⟩
    · intro p; exact map_getElem?_set _ _ _ _ _ _ hc rfl
    · intro p; exact map_getElem?_set _ _ _ _ _ _ hc rfl
  · intro x
    unfold World.stackOf
    by_cases hx : ce = x
    · subst hx
      simp [List.getElem?_set_self hce, he, env_t.stack]
    · simp [List.getElem?_set_ne hx]
  · intro p
    exact map_getElem?_set _ _ _ _ _ _ hc rfl
  · exact ⟨_, List.getElem?_set_self hce, rfl, rfl⟩

theorem switchFrame_setEnv (w : World) (p : Nat) (e : env_t) : SwitchFrame w (w.setEnv p e) :=
  ⟨rfl, by simp [World.setEnv], rfl, rfl, rfl, rfl, rfl, rfl, rfl, rfl, rfl,
   fun _ => rfl, fun _ => rfl⟩

theorem stackOf_setEnv_ne (w : World) (p x : Nat) (e : env_t) (h : p ≠ x) :
    (w.setEnv p e).stackOf x = w.stackOf x := by
  simp [World.stackOf, World.setEnv, List.getElem?_set_ne h]

theorem stackOf_setEnv_self (w : World) (p : Nat) (e : env_t) (cs : Nat → Nat)
    (hp : p < w.envs.length) (hcs : e.callstack = some cs) :
    (w.setEnv p e).stackOf p = some ((List.range e.callstacksize).map cs) := by
  simp [World.stackOf, World.setEnv, List.getElem?_set_self hp, env_t.stack, hcs]

/-- The function `yield_env` on a call stack with top `Y` above `X`: it pops `Y`
and transfers control from `Y` to `X`. -/
theorem yield_env_spec (sp env ce : Nat) (w : World) (st : List Nat) (X Y : Nat)
    (hst : w.stackOf env = some (st ++ [X, Y]))
    (hX : X < w.cos.length) (hY : Y < w.cos.length)
    (hcur : get_curr_thread_env w = some ce) (hce : ce < w.envs.length) :
    ∃ w', yield_env sp env w = some w' ∧
      w'.stackOf env = some (st ++ [X]) ∧ (∀ x, x ≠ env → w'.stackOf x = w.stackOf x) ∧
      w'.transfers = w.transfers ++ [(Y, X)] ∧ SwitchFrame w w' ∧
      (∀ p, w'.stateOf p = w.stateOf p) ∧
      (∃ e', w'.envs[ce]? = some e' ∧ e'.occupy = none ∧ e'.pending = none) := by
  have hst' : w.stackOf env = some ((st ++ [X]) ++ [Y]) := by simpa using hst
  obtain ⟨e, cs, he, hcs, hsz, hcsY, hmap⟩ := stackOf_top hst'
  have hel : env < w.envs.length := (List.getElem?_eq_some.mp he).1
  have hlen : (st ++ [X]).length = st.length + 1 := by simp
  rw [hlen] at hsz hcsY hmap
  have hcsX : cs st.length = X := by
    rw [List.range_succ, List.map_append] at hmap
    simpa using List.append_inj_right' hmap (by simp)
  obtain ⟨ecs, esz, eep, eocc, epend⟩ := e
  simp only at hcs hsz
  subst hcs hsz
  let w2 := w.setEnv env { callstack := some cs, callstacksize := st.length + 1, epoll := eep,
                           occupy := eocc, pending := epend }
  have hf2 : SwitchFrame w w2 := switchFrame_setEnv _ _ _
  obtain ⟨w', hsw, htr, hfr, hstk, hsta, hocc⟩ :=
    coroutine_swap_spec sp Y X ce w2 ((switchFrame_curr_env hf2).trans hcur)
      (by rw [hf2.envs_length]; exact hce)
      (by rw [hf2.cos_length]; exact hY) (by rw [hf2.cos_length]; exact hX)
  refine ⟨w', ?_, ?_, ?_, ?_, switchFrame_trans hf2 hfr, ?_, hocc⟩
  · unfold yield_env
    simp only [he, Option.bind_eq_bind, Option.some_bind]
    rw [if_neg (by omega)]
    have e1 : st.length + 1 + 1 - 2 = st.length := by omega
    have e2 : st.length + 1 + 1 - 1 = st.length + 1 := by omega
    simp only [e1, e2, hcsX, hcsY]
    exact hsw
  · rw [hstk, stackOf_setEnv_self w env _ cs hel rfl]
    rw [hmap]
  · intro x hx
    rw [hstk, stackOf_setEnv_ne _ _ _ _ (Ne.symm hx)]
  · rw [htr]; rfl
  · intro p; rw [hsta]; rfl

/-- The function `coroutine_resume` on a call stack with top `A`: it pushes `co`,
leaves `co` RUNNING and transfers control from `A` to `co`; a coroutine that was
not RUNNING has its context primed with the trampoline. -/
theorem coroutine_resume_spec (sp co env ce : Nat) (w : World) (c : coroutine_t)
    (st : List Nat) (A : Nat)
    (hc : w.cos[co]? = some c) (hcenv : c.env = some env)
    (hst : w.stackOf env = some (st ++ [A])) (hA : A < w.cos.length)
    (hcur : get_curr_thread_env w = some ce) (hce : ce < w.envs.length) :
    ∃ w', coroutine_resume sp co w = some w' ∧
      w'.stackOf env = some (st ++ [A, co]) ∧ (∀ x, x ≠ env → w'.stackOf x = w.stackOf x) ∧
      w'.transfers = w.transfers ++ [(A, co)] ∧ SwitchFrame w w' ∧
      w'.stateOf co = some .RUNNING ∧ (∀ p, p ≠ co → w'.stateOf p = w.stateOf p) ∧
      (c.state ≠ .RUNNING → A ≠ co →
        (w'.cos[co]?).map (fun c => c.context) = some (.entry co)) ∧
      (∃ e', w'.envs[ce]? = some e' ∧ e'.occupy = none ∧ e'.pending = none) := by
  obtain ⟨e, cs, he, hcs, hsz, hcsA, hmap⟩ := stackOf_top hst
  have hel : env < w.envs.length := (List.getElem?_eq_some.mp he).1
  have hcl : co < w.cos.length := (List.getElem?_eq_some.mp hc).1
  obtain ⟨ecs, esz, eep, eocc, epend⟩ := e
  simp only at hcs hsz
  subst hcs hsz
  obtain ⟨cfun, cenv, carg, cmain, cstate, cctx, csp, csz, cbuf, cstk⟩ := c
  simp only at hcenv
  subst hcenv
  simp only [ne_eq]
  have key : ∀ w1 : World, SwitchFrame w w1 → w1.envs = w.envs → w1.transfers = w.transfers →
      w1.stateOf co = some .RUNNING → (∀ p, p ≠ co → w1.stateOf p = w.stateOf p) →
      (¬ cstate = .RUNNING → (w1.cos[co]?).map (fun c => c.context) = some (.entry co)) →
      ∃ w', coroutine_swap sp A co (w1.setEnv env
          ⟨some (Function.update cs (st.length + 1) co), st.length + 1 + 1, eep, eocc, epend⟩)
          = some w' ∧
        w'.stackOf env = some (st ++ [A, co]) ∧ (∀ x, x ≠ env → w'.stackOf x = w.stackOf x) ∧
        w'.transfers = w.transfers ++ [(A, co)] ∧ SwitchFrame w w' ∧
        w'.stateOf co = some .RUNNING ∧ (∀ p, p ≠ co → w'.stateOf p = w.stateOf p) ∧
        (¬ cstate = .RUNNING → A ≠ co →
          (w'.cos[co]?).map (fun c => c.context) = some (.entry co)) ∧
        (∃ e', w'.envs[ce]? = some e' ∧ e'.occupy = none ∧ e'.pending = none) := by
    intro w1 hf1 henvs1 htr1 hst1 hoth1 hctx1
    have hf2 : SwitchFrame w1 (w1.setEnv env
          ⟨some (Function.update cs (st.length + 1) co), st.length + 1 + 1, eep, eocc, epend⟩) :=
      switchFrame_setEnv _ _ _
    have hf12 := switchFrame_trans hf1 hf2
    have hA2 := hA
    have hcl2 := hcl
    have hce2 := hce
    rw [← hf12.cos_length] at hA2 hcl2
    rw [← hf12.envs_length] at hce2
    obtain ⟨w', hsw, htr, hfr, hstk, hsta, hocc⟩ :=
      coroutine_swap_spec sp A co ce _ ((switchFrame_curr_env hf12).trans hcur) hce2 hA2 hcl2
    refine ⟨w', hsw, ?_, ?_, ?_, switchFrame_trans hf12 hfr, ?_, ?_, ?_, hocc⟩
    · rw [hstk]
      have hel1 : env < w1.envs.length := by rw [henvs1]; exact hel
      rw [stackOf_setEnv_self w1 env _ _ hel1 rfl]
      show some ((List.range (st.length + 1 + 1)).map (Function.update cs (st.length + 1) co)) = _
      rw [range_map_update, List.range_succ, List.map_append, hmap]
      simp [hcsA]
    · intro x hx
      rw [hstk, stackOf_setEnv_ne _ _ _ _ (Ne.symm hx)]
      simp [World.stackOf, henvs1]
    · rw [htr]
      show w1.transfers ++ _ = _
      rw [htr1]
    · rw [hsta]; exact hst1
    · intro p hp
      rw [hsta]; exact hoth1 p hp
    · intro hs hne
      have h1 := hctx1 hs
      rw [coroutine_swap_eq sp A co ce _ _ _ ((switchFrame_curr_env hf12).trans hcur)
          (List.getElem?_eq_getElem hA2) (List.getElem?_eq_getElem hce2) hcl2] at hsw
      have hw' := Option.some.inj hsw
      rw [← hw']
      show ((List.set _ A _)[co]?).map _ = _
      rw [List.getElem?_set_ne hne]
      exact h1
  unfold coroutine_resume
  simp only [hc, he, Option.bind_eq_bind, Option.some_bind]
  rw [if_neg (by omega)]
  have e1 : st.length + 1 - 1 = st.length := by omega
  simp only [e1, hcsA, ne_eq]
  by_cases hs : cstate = .RUNNING
  · rw [if_neg (by simp [hs])]
    exact key w (switchFrame_refl w) rfl rfl (by simp [World.stateOf, hc, hs]) (fun _ _ => rfl)
      (fun h => absurd hs h)
  · rw [if_pos (by simp [hs])]
    refine key _ ⟨by simp [World.setCo], rfl, rfl, rfl, rfl, rfl, rfl, rfl, rfl, rfl, rfl, ?_, ?_⟩
      rfl rfl ?_ ?_ ?_
    · intro p; exact map_getElem?_set _ _ _ _ _ _ hc rfl
    · intro p; exact map_getElem?_set _ _ _ _ _ _ hc rfl
    · simp [World.stateOf, World.setCo, List.getElem?_set_self hcl]
    · intro p hp
      simp [World.stateOf, World.setCo, List.getElem?_set_ne (Ne.symm hp)]
    · intro _
      simp [World.setCo, List.getElem?_set_self hcl]

/-- With `occupy` (or `pending`) cleared, the part of `coroutine_swap` after the
transfer copies nothing. -/
theorem coroutine_swap_return_idle (w : World) (ce : Nat) (e : env_t)
    (hcur : get_curr_thread_env w = some ce) (he : w.envs[ce]? = some e)
    (hocc : e.occupy = none) : coroutine_swap_return w = some w := by
  simp [coroutine_swap_return, hcur, he, hocc]

theorem coroutine_yield_eq (sp co env : Nat) (w : World)
    (h : (w.cos[co]?).map (fun c => c.env) = some (some env)) :
    coroutine_yield sp co w = yield_env sp env w := by
  cases hc : w.cos[co]? with
  | none => simp [hc] at h
  | some c =>
    simp only [hc, Option.map_some', Option.some.injEq] at h
    simp [coroutine_yield, hc, h]

/-- C3: resume and yield nest like calls.  On an environment whose call stack
is `st ++ [A]`, `coroutine_resume(B)` then `coroutine_resume(C)` make the stack
`st ++ [A, B, C]` with transfers A->B and B->C; the next yield pops `C` and
transfers C->B; the one after pops `B` and transfers B->A, and the call stack
(entries and `callstacksize`) is again what it was.  When control comes back
into a resumer, the rest of its `coroutine_swap` changes nothing.  In general a
yield on a stack `st ++ [X, Y]` pops `Y` and switches to `X`. -/
theorem nested_resume_yield (sp1 sp2 sp3 sp4 env ce A B C : Nat) (w : World) (st : List Nat)
    (cB cC : coroutine_t)
    (hstack : w.stackOf env = some (st ++ [A])) (hA : A < w.cos.length)
    (hB : w.cos[B]? = some cB) (hBenv : cB.env = some env)
    (hC : w.cos[C]? = some cC) (hCenv : cC.env = some env)
    (hcur : get_curr_thread_env w = some ce) (hce : ce < w.envs.length) :
    (∃ w1 w2 w3 w4,
      coroutine_resume sp1 B w = some w1 ∧ coroutine_resume sp2 C w1 = some w2 ∧
      coroutine_yield sp3 C w2 = some w3 ∧ coroutine_swap_return w3 = some w3 ∧
      coroutine_yield sp4 B w3 = some w4 ∧ coroutine_swap_return w4 = some w4 ∧
      w1.stackOf env = some (st ++ [A, B]) ∧ w1.transfers = w.transfers ++ [(A, B)] ∧
      w2.stackOf env = some (st ++ [A, B, C]) ∧ w2.transfers = w1.transfers ++ [(B, C)] ∧
      w3.stackOf env = some (st ++ [A, B]) ∧ w3.transfers = w2.transfers ++ [(C, B)] ∧
      w4.stackOf env = some (st ++ [A]) ∧ w4.transfers = w3.transfers ++ [(B, A)] ∧
      (∀ x, w4.stackOf x = w.stackOf x) ∧
      (w4.envs[env]?).map (fun e => e.callstacksize)
        = (w.envs[env]?).map (fun e => e.callstacksize)) ∧
    (∀ (sp env' ce' : Nat) (v : World) (st' : List Nat) (X Y : Nat),
      v.stackOf env' = some (st' ++ [X, Y]) → X < v.cos.length → Y < v.cos.length →
      get_curr_thread_env v = some ce' → ce' < v.envs.length →
      ∃ v', yield_env sp env' v = some v' ∧ v'.stackOf env' = some (st' ++ [X]) ∧
        v'.transfers = v.transfers ++ [(Y, X)]) := by
  constructor
  · have hBl : B < w.cos.length := (List.getElem?_eq_some.mp hB).1
    have hCl : C < w.cos.length := (List.getElem?_eq_some.mp hC).1
    obtain ⟨w1, h1, hs1, ho1, ht1, hf1, -, -, -, -⟩ :=
      coroutine_resume_spec sp1 B env ce w cB st A hB hBenv hstack hA hcur hce
    have hCenv1 : (w1.cos[C]?).map (fun c => c.env) = some (some env) := by
      rw [hf1.co_env, hC]; simp [hCenv]
    obtain ⟨cC1, hC1⟩ : ∃ c, w1.cos[C]? = some c := by
      cases h : w1.cos[C]? with
      | none => simp [h] at hCenv1
      | some c => exact ⟨c, rfl⟩
    have hCenv1' : cC1.env = some env := by simpa [hC1] using hCenv1
    have hs1' : w1.stackOf env = some ((st ++ [A]) ++ [B]) := by simpa using hs1
    obtain ⟨w2, h2, hs2, ho2, ht2, hf2, -, -, -, -⟩ :=
      coroutine_resume_spec sp2 C env ce w1 cC1 (st ++ [A]) B hC1 hCenv1' hs1'
        (by rw [hf1.cos_length]; exact hBl) ((switchFrame_curr_env hf1).trans hcur)
        (by rw [hf1.envs_length]; exact hce)
    have hf12 := switchFrame_trans hf1 hf2
    have hs2' : w2.stackOf env = some ((st ++ [A]) ++ [B, C]) := by simpa using hs2
    obtain ⟨w3, h3, hs3, ho3, ht3, hf3, -, e3, he3, hocc3, -⟩ :=
      yield_env_spec sp3 env ce w2 (st ++ [A]) B C hs2'
        (by rw [hf12.cos_length]; exact hBl) (by rw [hf12.cos_length]; exact hCl)
        ((switchFrame_curr_env hf12).trans hcur) (by rw [hf12.envs_length]; exact hce)
    have hf123 := switchFrame_trans hf12 hf3
    have hs3' : w3.stackOf env = some (st ++ [A, B]) := by simpa using hs3
    obtain ⟨w4, h4, hs4, ho4, ht4, hf4, -, e4, he4, hocc4, -⟩ :=
      yield_env_spec sp4 env ce w3 st A B hs3'
        (by rw [hf123.cos_length]; exact hA) (by rw [hf123.cos_length]; exact hBl)
        ((switchFrame_curr_env hf123).trans hcur) (by rw [hf123.envs_length]; exact hce)
    have hf1234 := switchFrame_trans hf123 hf4
    have hall : ∀ x, w4.stackOf x = w.stackOf x := by
      intro x
      by_cases hx : x = env
      · rw [hx, hs4, hstack]
      · rw [ho4 x hx, ho3 x hx, ho2 x hx, ho1 x hx]
    refine ⟨w1, w2, w3, w4, h1, h2, ?_, ?_, ?_, ?_, by simpa using hs1, ht1, by simpa using hs2,
      ht2, hs3', ht3, hs4, ht4, hall, ?_⟩
    · rw [coroutine_yield_eq sp3 C env w2 (by rw [hf2.co_env]; exact hCenv1)]
      exact h3
    · exact coroutine_swap_return_idle w3 ce e3 ((switchFrame_curr_env hf123).trans hcur) he3 hocc3
    · rw [coroutine_yield_eq sp4 B env w3 (by rw [hf123.co_env, hB]; simp [hBenv])]
      exact h4
    · exact coroutine_swap_return_idle w4 ce e4 ((switchFrame_curr_env hf1234).trans hcur) he4 hocc4
    · obtain ⟨ea, csa, hea, -, hsza, -, -⟩ := stackOf_top hs4
      obtain ⟨eb, csb, heb, -, hszb, -, -⟩ := stackOf_top hstack
      simp [hea, heb, hsza, hszb]
  · intro sp env' ce' v st' X Y hv hX hY hcur' hce'
    obtain ⟨v', h, hs, -, ht, -, -, -⟩ := yield_env_spec sp env' ce' v st' X Y hv hX hY hcur' hce'
    exact ⟨v', h, hs, ht⟩

theorem nested_resume_yield_witness :
    (∃ w1 w2 w3 w4,
      coroutine_resume 10 1 world_example = some w1 ∧ coroutine_resume 20 2 w1 = some w2 ∧
      coroutine_yield 30 2 w2 = some w3 ∧ coroutine_swap_return w3 = some w3 ∧
      coroutine_yield 40 1 w3 = some w4 ∧ coroutine_swap_return w4 = some w4 ∧
      w1.stackOf 0 = some ([] ++ [0, 1]) ∧ w1.transfers = world_example.transfers ++ [(0, 1)] ∧
      w2.stackOf 0 = some ([] ++ [0, 1, 2]) ∧ w2.transfers = w1.transfers ++ [(1, 2)] ∧
      w3.stackOf 0 = some ([] ++ [0, 1]) ∧ w3.transfers = w2.transfers ++ [(2, 1)] ∧
      w4.stackOf 0 = some ([] ++ [0]) ∧ w4.transfers = w3.transfers ++ [(1, 0)] ∧
      (∀ x, w4.stackOf x = world_example.stackOf x) ∧
      (w4.envs[0]?).map (fun e => e.callstacksize)
        = (world_example.envs[0]?).map (fun e => e.callstacksize)) ∧
    (∀ (sp env' ce' : Nat) (v : World) (st' : List Nat) (X Y : Nat),
      v.stackOf env' = some (st' ++ [X, Y]) → X < v.cos.length → Y < v.cos.length →
      get_curr_thread_env v = some ce' → ce' < v.envs.length →
      ∃ v', yield_env sp env' v = some v' ∧ v'.stackOf env' = some (st' ++ [X]) ∧
        v'.transfers = v.transfers ++ [(Y, X)]) :=
  nested_resume_yield 10 20 30 40 0 0 0 1 2 world_example [] (co_example (some 7) .INIT)
    (co_example none .INIT) (by decide) (by decide) (by decide) (by decide) (by decide)
    (by decide) (by decide) (by decide)

theorem coroutine_swap_inv {sp a b : Nat} {w w' : World}
    (h : coroutine_swap sp a b w = some w') :
    ∃ ce, get_curr_thread_env w = some ce ∧ ce < w.envs.length ∧
      a < w.cos.length ∧ b < w.cos.length := by
  unfold coroutine_swap at h
  cases hcur : get_curr_thread_env w with
  | none => simp [hcur] at h
  | some ce =>
    cases hc : w.cos[a]? with
    | none => simp [hcur, hc] at h
    | some c =>
      cases he : w.envs[ce]? with
      | none => simp [hcur, hc, he, World.setCo] at h
      | some e =>
        have hal : a < w.cos.length := (List.getElem?_eq_some.mp hc).1
        have hel : ce < w.envs.length := (List.getElem?_eq_some.mp he).1
        refine ⟨ce, rfl, hel, hal, ?_⟩
        by_contra hb
        have hb' : w.cos.length ≤ b := Nat.le_of_not_lt hb
        have hnone : ∀ c' : coroutine_t, (w.cos.set a c')[b]? = none := fun c' =>
          List.getElem?_eq_none (by simpa using hb')
        simp [hcur, hc, he, World.setCo, World.setEnv, List.getElem?_set_self hel,
          context_swap, List.getElem?_set_self hal, hnone] at h

theorem yield_env_inv {sp env : Nat} {w w' : World} (h : yield_env sp env w = some w') :
    ∃ ce st X Y, w.stackOf env = some (st ++ [X, Y]) ∧ X < w.cos.length ∧ Y < w.cos.length ∧
      get_curr_thread_env w = some ce ∧ ce < w.envs.length := by
  unfold yield_env at h
  cases he : w.envs[env]? with
  | none => simp [he] at h
  | some e =>
    cases hcs : e.callstack with
    | none => simp [he, hcs] at h
    | some cs =>
      simp only [he, hcs, Option.bind_eq_bind, Option.some_bind] at h
      by_cases hsz : e.callstacksize < 2
      · simp [hsz] at h
      · rw [if_neg hsz] at h
        obtain ⟨ce, hcur, hce, hY, hX⟩ := coroutine_swap_inv h
        refine ⟨ce, (List.range (e.callstacksize - 2)).map cs, cs (e.callstacksize - 2),
          cs (e.callstacksize - 1), ?_, ?_, ?_, ?_, ?_⟩
        · rw [stackOf_of_env he hcs]
          obtain ⟨k, hk⟩ : ∃ k, e.callstacksize = k + 2 := ⟨e.callstacksize - 2, by omega⟩
          simp [hk, List.range_succ]
        · simpa [World.setEnv] using hX
        · simpa [World.setEnv] using hY
        · simpa [World.setEnv, get_curr_thread_env] using hcur
        · simpa [World.setEnv] using hce

theorem coroutine_resume_inv {sp co : Nat} {w w' : World}
    (h : coroutine_resume sp co w = some w') :
    ∃ c env ce st A, w.cos[co]? = some c ∧ c.env = some env ∧
      w.stackOf env = some (st ++ [A]) ∧ A < w.cos.length ∧
      get_curr_thread_env w = some ce ∧ ce < w.envs.length := by
  unfold coroutine_resume at h
  cases hc : w.cos[co]? with
  | none => simp [hc] at h
  | some c =>
    cases hcenv : c.env with
    | none => simp [hc, hcenv] at h
    | some env =>
      cases he : w.envs[env]? with
      | none => simp [hc, hcenv, he] at h
      | some e =>
        cases hcs : e.callstack with
        | none => simp [hc, hcenv, he, hcs] at h
        | some cs =>
          simp only [hc, hcenv, he, hcs, Option.bind_eq_bind, Option.some_bind] at h
          by_cases hsz : e.callstacksize < 1
          · simp [hsz] at h
          · rw [if_neg hsz] at h
            obtain ⟨ce, hcur, hce, hA, -⟩ := coroutine_swap_inv h
            refine ⟨c, env, ce, (List.range (e.callstacksize - 1)).map cs,
              cs (e.callstacksize - 1), rfl, hcenv, ?_, ?_, ?_, ?_⟩
            · rw [stackOf_of_env he hcs]
              obtain ⟨k, hk⟩ : ∃ k, e.callstacksize = k + 1 := ⟨e.callstacksize - 1, by omega⟩
              simp [hk, List.range_succ]
            · by_cases hs : c.state = .RUNNING
              · simpa [hs, World.setEnv] using hA
              · simpa [hs, World.setEnv, World.setCo] using hA
            · by_cases hs : c.state = .RUNNING
              · simpa [hs, World.setEnv, get_curr_thread_env] using hcur
              · simpa [hs, World.setEnv, World.setCo, get_curr_thread_env] using hcur
            · by_cases hs : c.state = .RUNNING
              · simpa [hs, World.setEnv] using hce
              · simpa [hs, World.setEnv, World.setCo] using hce

theorem returnedUnyielded_refl (env co : Nat) (v : World) : ReturnedUnyielded env co v v :=
  ⟨rfl, rfl, Nat.le_refl _, Nat.le_refl _, rfl⟩

theorem curr_coroutine_of_stack {w : World} {env : Nat} {st : List Nat} {A : Nat}
    (h : w.stackOf env = some (st ++ [A])) : curr_coroutine env w = some A := by
  obtain ⟨e, cs, he, hcs, hsz, hA, -⟩ := stackOf_top h
  simp [curr_coroutine, he, hcs, hsz, hA]

/-- C4: a coroutine `co` that is not RUNNING is resumed from `A`, the top of the
call stack; the transfer enters the trampoline, and the function of `co` (if the
pointer is not NULL) returns without having yielded.  Then `cotoutine_main` sets
`co` to STOPPED and yields once: the only transfer after the return of the
function goes from `co` to `A`, `co` is popped, `A` is the top of the call stack
again, and in the state `A` continues in, `co` is STOPPED. -/
theorem returned_coroutine_is_stopped (app : Nat → Nat → World → Option World)
    (sp sp' env ce A co : Nat) (w : World) (st : List Nat) (c : coroutine_t)
    (hc : w.cos[co]? = some c) (hcenv : c.env = some env) (hstate : c.state ≠ .RUNNING)
    (hstack : w.stackOf env = some (st ++ [A])) (hA : A < w.cos.length) (hne : A ≠ co)
    (hcur : get_curr_thread_env w = some ce) (hce : ce < w.envs.length)
    (happ : ∀ f v, c.«fun» = some f → coroutine_resume sp co w = some v →
      ∃ v', app f c.arg v = some v' ∧ ReturnedUnyielded env co v v') :
    ∃ w1 w2 w3,
      coroutine_resume sp co w = some w1 ∧
      w1.transfers = w.transfers ++ [(A, co)] ∧
      w1.stackOf env = some (st ++ [A, co]) ∧
      (match c.«fun» with
        | some f => app f c.arg w1
        | none => some w1) = some w2 ∧
      cotoutine_main app sp' co w1 = some w3 ∧
      w3.transfers = w2.transfers ++ [(co, A)] ∧
      coroutine_swap_return w3 = some w3 ∧
      resume_and_run app sp sp' co w = some w3 ∧
      w3.stackOf env = some (st ++ [A]) ∧
      curr_coroutine env w3 = some A ∧
      w3.stateOf co = some .STOPPED := by
  have hcl : co < w.cos.length := (List.getElem?_eq_some.mp hc).1
  obtain ⟨w1, h1, hs1, -, ht1, hf1, -, -, hctx, -⟩ :=
    coroutine_resume_spec sp co env ce w c st A hc hcenv hstack hA hcur hce
  have hctx1 := hctx hstate hne
  obtain ⟨c1, hc1⟩ : ∃ c1, w1.cos[co]? = some c1 :=
    ⟨_, List.getElem?_eq_getElem (by rw [hf1.cos_length]; exact hcl)⟩
  have hc1ctx : c1.context = .entry co := by simpa [hc1] using hctx1
  have hc1fun : c1.«fun» = c.«fun» ∧ c1.arg = c.arg := by
    have := hf1.co_fun co
    simpa [hc1, hc] using this
  have hc1env : (w1.cos[co]?).map (fun c => c.env) = some (some env) := by
    rw [hf1.co_env, hc]; simp [hcenv]
  -- the application function
  obtain ⟨w2, hw2, hret⟩ : ∃ w2, (match c.«fun» with
        | some f => app f c.arg w1
        | none => some w1) = some w2 ∧ ReturnedUnyielded env co w1 w2 := by
    cases hfun : c.«fun» with
    | none => exact ⟨w1, rfl, returnedUnyielded_refl _ _ _⟩
    | some f =>
      obtain ⟨v', hv', hr⟩ := happ f w1 hfun h1
      exact ⟨v', hv', hr⟩
  obtain ⟨c2, hc2⟩ : ∃ c2, w2.cos[co]? = some c2 := by
    have := hret.co_env
    rw [hc1env] at this
    cases h : w2.cos[co]? with
    | none => simp [h] at this
    | some c2 => exact ⟨c2, rfl⟩
  have hc2env : c2.env = some env := by
    have := hret.co_env
    rw [hc1env, hc2] at this
    simpa using this
  have hcl2 : co < w2.cos.length := (List.getElem?_eq_some.mp hc2).1
  -- co->state = STOPPED
  let w2' := w2.setCo co { c2 with state := .STOPPED }
  have hc2' : w2'.cos[co]? = some { c2 with state := .STOPPED } := by
    simp [w2', World.setCo, List.getElem?_set_self hcl2]
  have hs2' : w2'.stackOf env = some (st ++ [A, co]) := by
    show w2.stackOf env = _
    rw [hret.stack, hs1]
  have hA2 : A < w2'.cos.length := by
    show A < (w2.cos.set co _).length
    rw [List.length_set]
    exact Nat.lt_of_lt_of_le (by rw [hf1.cos_length]; exact hA) hret.cos_length
  have hco2 : co < w2'.cos.length := by
    show co < (w2.cos.set co _).length
    rw [List.length_set]
    exact hcl2
  have hcur2 : get_curr_thread_env w2' = some ce := by
    show get_curr_thread_env w2 = _
    rw [hret.curr_env, (switchFrame_curr_env hf1), hcur]
  have hce2 : ce < w2'.envs.length := by
    show ce < w2.envs.length
    exact Nat.lt_of_lt_of_le (by rw [hf1.envs_length]; exact hce) hret.envs_length
  obtain ⟨w3, h3, hs3, -, ht3, hf3, hsta3, e3, he3, hocc3, -⟩ :=
    yield_env_spec sp' env ce w2' st A co hs2' hA2 hco2 hcur2 hce2
  have hmain : cotoutine_main app sp' co w1 = some w3 := by
    unfold cotoutine_main
    simp only [hc1, Option.bind_eq_bind, Option.some_bind, hc1fun.1, hc1fun.2, hw2, hc2]
    show ((w2'.cos[co]?).bind fun c => c.env.bind fun env => yield_env sp' env w2') = some w3
    rw [hc2']
    show ((c2.env).bind fun env => yield_env sp' env w2') = some w3
    rw [hc2env]
    exact h3
  have hidle : coroutine_swap_return w3 = some w3 :=
    coroutine_swap_return_idle w3 ce e3 ((switchFrame_curr_env hf3).trans hcur2) he3 hocc3
  refine ⟨w1, w2, w3, h1, ht1, hs1, hw2, hmain, ht3, hidle, ?_, hs3,
    curr_coroutine_of_stack hs3, ?_⟩
  · unfold resume_and_run
    simp only [h1, hc1, Option.bind_eq_bind, Option.some_bind, hc1ctx, hmain, hidle]
  · rw [hsta3]
    simp [World.stateOf, hc2']

theorem returned_coroutine_is_stopped_witness :
    ∃ w1 w2 w3,
      coroutine_resume 10 1 world_example = some w1 ∧
      w1.transfers = world_example.transfers ++ [(0, 1)] ∧
      w1.stackOf 0 = some ([] ++ [0, 1]) ∧
      (match (co_example (some 7) .INIT).«fun» with
        | some f => (fun _ _ v => some v) f (co_example (some 7) .INIT).arg w1
        | none => some w1) = some w2 ∧
      cotoutine_main (fun _ _ v => some v) 20 1 w1 = some w3 ∧
      w3.transfers = w2.transfers ++ [(1, 0)] ∧
      coroutine_swap_return w3 = some w3 ∧
      resume_and_run (fun _ _ v => some v) 10 20 1 world_example = some w3 ∧
      w3.stackOf 0 = some ([] ++ [0]) ∧
      curr_coroutine 0 w3 = some 0 ∧
      w3.stateOf 1 = some .STOPPED :=
  returned_coroutine_is_stopped (fun _ _ v => some v) 10 20 0 0 0 1 world_example []
    (co_example (some 7) .INIT) (by decide) (by decide) (by decide) (by decide) (by decide)
    (by decide) (by decide) (by decide)
    (fun _ v _ _ => ⟨v, rfl, returnedUnyielded_refl _ _ _⟩)

/-! ## Shared-stack bookkeeping (coroutine_swap) -/

/-- C10 (as stated, refuted): after the switch-out half of
`coroutine_swap(0, 1)` on `world_example`, that is at the moment of the
transfer, `occupy` and `pending` of the environment are both NULL; they are not
the coroutines 0 and 1. -/
theorem coroutine_swap_clears_example :
    (coroutine_swap 10 0 1 world_example).map
        (fun w' => (w'.envs[0]?).map (fun e => (e.occupy, e.pending)))
      = some (some (none, none)) ∧
    (none : Option Nat) ≠ some 0 ∧ (none : Option Nat) ≠ some 1 := by
  decide

/-- C10 (amended): every switch `coroutine_swap(curr, pending)` snapshots the
stack pointer of `curr` and sets `env->pending` and `env->occupy` to NULL before
the transfer, so at the moment of the transfer both are NULL, and with the
fields so the part after the transfer copies nothing.  Whenever, after a
transfer, `occupy` and `pending` of the environment are both set and differ and
`pending` has a save buffer with `save_size > 0`, the `save_size` bytes of the
save buffer are copied to `pending->stack_sp` and nothing else changes; in
every other case nothing is copied. -/
theorem coroutine_swap_records (sp curr pending ce : Nat) (w : World)
    (hcur : get_curr_thread_env w = some ce) (hce : ce < w.envs.length)
    (hcurr : curr < w.cos.length) (hpend : pending < w.cos.length) :
    (∃ w' e', coroutine_swap sp curr pending w = some w' ∧
      w'.transfers = w.transfers ++ [(curr, pending)] ∧
      get_curr_thread_env w' = some ce ∧ w'.envs[ce]? = some e' ∧
      e'.occupy = none ∧ e'.pending = none ∧
      (w'.cos[curr]?).map (fun c => c.stack_sp) = some sp ∧
      coroutine_swap_return w' = some w') ∧
    (∀ (v : World) (e : env_t) (o p buf : Nat) (pc : coroutine_t),
      get_curr_thread_env v = some ce → v.envs[ce]? = some e →
      e.occupy = some o → e.pending = some p → o ≠ p →
      v.cos[p]? = some pc → pc.save_buffer = some buf → 0 < pc.save_size →
      ∃ v', coroutine_swap_return v = some v' ∧
        (∀ i, i < pc.save_size → v'.mem (pc.stack_sp + i) = v.mem (buf + i)) ∧
        (∀ a, a < pc.stack_sp ∨ pc.stack_sp + pc.save_size ≤ a → v'.mem a = v.mem a) ∧
        v'.cos = v.cos ∧ v'.envs = v.envs ∧ v'.transfers = v.transfers) ∧
    (∀ (v : World) (e : env_t),
      get_curr_thread_env v = some ce → v.envs[ce]? = some e →
      (e.occupy = none ∨ e.pending = none ∨ e.occupy = e.pending ∨
        ∃ p pc, e.pending = some p ∧ v.cos[p]? = some pc ∧
          (pc.save_buffer = none ∨ pc.save_size = 0)) →
      coroutine_swap_return v = some v) := by
  refine ⟨?_, ?_, ?_⟩
  · have hc : w.cos[curr]? = some w.cos[curr] := List.getElem?_eq_getElem hcurr
    have he : w.envs[ce]? = some w.envs[ce] := List.getElem?_eq_getElem hce
    obtain ⟨w', hsw, htr, hfr, -, -, e', he', hocc, hpen⟩ :=
      coroutine_swap_spec sp curr pending ce w hcur hce hcurr hpend
    refine ⟨w', e', hsw, htr, (switchFrame_curr_env hfr).trans hcur, he', hocc, hpen, ?_,
      coroutine_swap_return_idle w' ce e' ((switchFrame_curr_env hfr).trans hcur) he' hocc⟩
    rw [coroutine_swap_eq sp curr pending ce w _ _ hcur hc he hpend] at hsw
    rw [← Option.some.inj hsw]
    simp [List.getElem?_set_self hcurr]
  · intro v e o p buf pc hcv hev ho hp hne hpc hbuf hsz
    refine ⟨{ v with mem := memcpy pc.stack_sp buf pc.save_size v.mem }, ?_, ?_, ?_, rfl, rfl, rfl⟩
    · simp [coroutine_swap_return, hcv, hev, ho, hp, hne, hpc, hbuf, hsz]
    · intro i hi
      simp [memcpy, hi]
    · intro a ha
      have : ¬ (pc.stack_sp ≤ a ∧ a < pc.stack_sp + pc.save_size) := by omega
      simp [memcpy, this]
  · intro v e hcv hev h
    rcases h with h | h | h | ⟨p, pc, hp, hpc, h⟩
    · simp [coroutine_swap_return, hcv, hev, h]
    · cases ho : e.occupy <;> simp [coroutine_swap_return, hcv, hev, h, ho]
    · cases ho : e.occupy with
      | none => simp [coroutine_swap_return, hcv, hev, ho]
      | some o =>
        have hp : e.pending = some o := by rw [← h, ho]
        simp [coroutine_swap_return, hcv, hev, ho, hp]
    · cases ho : e.occupy with
      | none => simp [coroutine_swap_return, hcv, hev, ho]
      | some o =>
        by_cases hne : o = p
        · simp [coroutine_swap_return, hcv, hev, ho, hp, hne]
        · rcases h with h | h
          · simp [coroutine_swap_return, hcv, hev, ho, hp, hne, hpc, h]
          · cases hb : pc.save_buffer <;>
              simp [coroutine_swap_return, hcv, hev, ho, hp, hne, hpc, h, hb]

theorem coroutine_swap_records_witness :
    (∃ w' e', coroutine_swap 10 0 1 world_example = some w' ∧
      w'.transfers = world_example.transfers ++ [(0, 1)] ∧
      get_curr_thread_env w' = some 0 ∧ w'.envs[0]? = some e' ∧
      e'.occupy = none ∧ e'.pending = none ∧
      (w'.cos[0]?).map (fun c => c.stack_sp) = some 10 ∧
      coroutine_swap_return w' = some w') ∧
    (∀ (v : World) (e : env_t) (o p buf : Nat) (pc : coroutine_t),
      get_curr_thread_env v = some 0 → v.envs[0]? = some e →
      e.occupy = some o → e.pending = some p → o ≠ p →
      v.cos[p]? = some pc → pc.save_buffer = some buf → 0 < pc.save_size →
      ∃ v', coroutine_swap_return v = some v' ∧
        (∀ i, i < pc.save_size → v'.mem (pc.stack_sp + i) = v.mem (buf + i)) ∧
        (∀ a, a < pc.stack_sp ∨ pc.stack_sp + pc.save_size ≤ a → v'.mem a = v.mem a) ∧
        v'.cos = v.cos ∧ v'.envs = v.envs ∧ v'.transfers = v.transfers) ∧
    (∀ (v : World) (e : env_t),
      get_curr_thread_env v = some 0 → v.envs[0]? = some e →
      (e.occupy = none ∨ e.pending = none ∨ e.occupy = e.pending ∨
        ∃ p pc, e.pending = some p ∧ v.cos[p]? = some pc ∧
          (pc.save_buffer = none ∨ pc.save_size = 0)) →
      coroutine_swap_return v = some v) :=
  coroutine_swap_records 10 0 1 0 world_example (by decide) (by decide) (by decide) (by decide)

/-! ## Poll adapter: the registration loop -/

theorem schedSame_refl (w : World) : SchedSame w w := ⟨rfl, rfl, rfl, rfl, rfl, rfl⟩

theorem schedSame_trans {a b c : World} (h1 : SchedSame a b) (h2 : SchedSame b c) :
    SchedSame a c :=
  ⟨h2.cos.trans h1.cos, h2.envs.trans h1.envs, h2.gEnv.trans h1.gEnv, h2.pid.trans h1.pid,
   h2.mem.trans h1.mem, h2.transfers.trans h1.transfers⟩

theorem timersSame_refl (w : World) : TimersSame w w := ⟨rfl, rfl, rfl⟩

theorem timersSame_trans {a b c : World} (h1 : TimersSame a b) (h2 : TimersSame b c) :
    TimersSame a c :=
  ⟨h2.pending_timers.trans h1.pending_timers, h2.active.trans h1.active,
   h2.timer_calls.trans h1.timer_calls⟩

/-- The effect of `do_epoll_ctl_add` on everything but the registrations and
`errno`, and its return value. -/
theorem do_epoll_ctl_add_spec (B : Backend) (epfd fd : Int) (ev : epoll_event) (tag : Nat × Nat)
    (w : World) :
    SchedSame w (do_epoll_ctl_add B epfd fd ev tag w).2 ∧
    TimersSame w (do_epoll_ctl_add B epfd fd ev tag w).2 ∧
    (do_epoll_ctl_add B epfd fd ev tag w).2.pollfunc_calls = w.pollfunc_calls ∧
    (∀ e, B.epoll_ctl_add w.regs epfd fd = some e →
      (do_epoll_ctl_add B epfd fd ev tag w).1 = -1 ∧
      (do_epoll_ctl_add B epfd fd ev tag w).2.errno = e ∧
      (do_epoll_ctl_add B epfd fd ev tag w).2.regs = w.regs) ∧
    (B.epoll_ctl_add w.regs epfd fd = none →
      (do_epoll_ctl_add B epfd fd ev tag w).1 = 0 ∧
      (do_epoll_ctl_add B epfd fd ev tag w).2.regs
        = w.regs ++ [{ epfd := epfd, fd := fd, events := ev.events, ptr := tag }]) ∧
    (∀ r ∈ (do_epoll_ctl_add B epfd fd ev tag w).2.regs,
      r ∈ w.regs ∨ ∃ regs, B.epoll_ctl_add regs epfd r.fd = none) := by
  unfold do_epoll_ctl_add
  cases h : B.epoll_ctl_add w.regs epfd fd with
  | none =>
    refine ⟨⟨rfl, rfl, rfl, rfl, rfl, rfl⟩, ⟨rfl, rfl, rfl⟩, rfl, by simp, by simp, ?_⟩
    intro r hr
    rcases List.mem_append.mp hr with hr | hr
    · exact Or.inl hr
    · rw [List.mem_singleton] at hr
      subst hr
      exact Or.inr ⟨w.regs, h⟩
  | some e =>
    exact ⟨⟨rfl, rfl, rfl, rfl, rfl, rfl⟩, ⟨rfl, rfl, rfl⟩, rfl, by simp, by simp,
      fun r hr => Or.inl hr⟩

/-- The registration loop when the fallback cannot be taken: it runs to its end,
whatever the backend answers. -/
theorem poll_inner_add_ok (B : Backend) (epfd : Int) (argp : Nat) (self : Option Nat)
    (fds : List pollfd) (nfds : Nat) (timeout : Int) (pollfunc : Option poll_fun_t)
    (l : List pollfd) :
    ∀ (i : Nat) (arg : poll_context_t) (w : World),
    (nfds ≠ 1 ∨ pollfunc = none ∨
      ∀ regs, ∀ f ∈ l, B.epoll_ctl_add regs epfd f.fd ≠ some EPERM) →
    ∃ arg' w', poll_inner_add B epfd argp self fds nfds timeout pollfunc l i arg w
        = (.ok arg', w') ∧
      SchedSame w w' ∧ TimersSame w w' ∧ w'.pollfunc_calls = w.pollfunc_calls ∧
      LoopResult i l.length arg arg' ∧
      (∀ r ∈ w'.regs, r ∈ w.regs ∨ ∃ regs, B.epoll_ctl_add regs epfd r.fd = none) := by
  induction l with
  | nil =>
    intro i arg w _
    exact ⟨arg, w, rfl, schedSame_refl w, timersSame_refl w, rfl,
      ⟨rfl, rfl, rfl, rfl, rfl, rfl, fun _ _ => rfl, fun j h1 h2 _ => by simp at h2; omega⟩,
      fun r hr => Or.inl hr⟩
  | cons f rest ih =>
    intro i arg w hnf
    have hnf' : nfds ≠ 1 ∨ pollfunc = none ∨
        ∀ regs, ∀ g ∈ rest, B.epoll_ctl_add regs epfd g.fd ≠ some EPERM := by
      rcases hnf with h | h | h
      · exact Or.inl h
      · exact Or.inr (Or.inl h)
      · exact Or.inr (Or.inr (fun regs g hg => h regs g (List.mem_cons_of_mem _ hg)))
    -- the tail of the loop, from any context whose item `i` points to `fds + i`
    have tail : ∀ (it : poll_item_t) (w1 : World), it.self = i →
        SchedSame w w1 → TimersSame w w1 → w1.pollfunc_calls = w.pollfunc_calls →
        (∀ r ∈ w1.regs, r ∈ w.regs ∨ ∃ regs, B.epoll_ctl_add regs epfd r.fd = none) →
        ∃ arg' w', poll_inner_add B epfd argp self fds nfds timeout pollfunc rest (i + 1)
            { arg with items := arg.items.set i it } w1
            = (.ok arg', w') ∧
          SchedSame w w' ∧ TimersSame w w' ∧ w'.pollfunc_calls = w.pollfunc_calls ∧
          LoopResult i (f :: rest).length arg arg' ∧
          (∀ r ∈ w'.regs, r ∈ w.regs ∨ ∃ regs, B.epoll_ctl_add regs epfd r.fd = none) := by
      intro it w1 hit hs ht hp hr1
      obtain ⟨arg', w', hrun, hs', ht', hp', hres, hr'⟩ :=
        ih (i + 1) { arg with items := arg.items.set i it } w1 hnf'
      refine ⟨arg', w', hrun, schedSame_trans hs hs', timersSame_trans ht ht', hp'.trans hp, ?_,
        fun r hr => (hr' r hr).elim (hr1 r) Or.inr⟩
      refine ⟨hres.fds, hres.nfds, hres.time, hres.allEventDetatch, hres.raise_cnt,
        by rw [hres.items_length]; simp, ?_, ?_⟩
      · intro j hj
        rw [hres.below j (by omega)]
        show (arg.items.set i it)[j]? = _
        rw [List.getElem?_set_ne (by omega)]
      · intro j h1 h2 h3
        by_cases hji : j = i
        · subst hji
          refine ⟨it, ?_, hit⟩
          rw [hres.below j (by omega)]
          show (arg.items.set j it)[j]? = _
          rw [List.getElem?_set_self h3]
        · exact hres.self j (by omega) (by simp at h2; omega) (by simpa using h3)
    unfold poll_inner_add
    by_cases hfd : f.fd > -1
    · rw [if_pos hfd]
      obtain ⟨hs1, ht1, hp1, hfail, hsucc, hr1⟩ := do_epoll_ctl_add_spec B epfd f.fd
        { events := PollEvent2Epoll f.events, ptr := some (argp, i) } (argp, i) w
      simp only []
      generalize do_epoll_ctl_add B epfd f.fd
        { events := PollEvent2Epoll f.events, ptr := some (argp, i) } (argp, i) w = r at *
      obtain ⟨ret, w1⟩ := r
      simp only at hs1 ht1 hp1 hfail hsucc hr1 ⊢
      by_cases hcond : ret < 0 ∧ w1.errno = EPERM ∧ nfds = 1
      · rw [if_pos hcond]
        cases hpf : pollfunc with
        | none =>
          subst hpf
          exact tail ⟨i, argp, ⟨true, false, self, 0⟩,
              ⟨PollEvent2Epoll f.events, some (argp, i)⟩⟩ w1 rfl hs1 ht1 hp1 hr1
        | some pf =>
          exfalso
          rcases hnf with h | h | h
          · exact h hcond.2.2
          · rw [hpf] at h; cases h
          · cases hor : B.epoll_ctl_add w.regs epfd f.fd with
            | none =>
              have := (hsucc hor).1
              omega
            | some e =>
              have he := (hfail e hor).2.1
              have : e = EPERM := by rw [← he]; exact hcond.2.1
              subst this
              exact h w.regs f (List.mem_cons_self _ _) hor
      · rw [if_neg hcond]
        exact tail ⟨i, argp, ⟨true, false, self, 0⟩,
            ⟨PollEvent2Epoll f.events, some (argp, i)⟩⟩ w1 rfl hs1 ht1 hp1 hr1
    · rw [if_neg hfd]
      exact tail ⟨i, argp, ⟨true, false, self, 0⟩, ⟨0, none⟩⟩ w rfl (schedSame_refl w)
        (timersSame_refl w) rfl (fun r hr => Or.inl hr)

/-! ## Poll adapter: setup -/

theorem coroutine_self_of_stack {w : World} {env : Nat} {st : List Nat} {A : Nat}
    (hcur : get_curr_thread_env w = some env) (h : w.stackOf env = some (st ++ [A])) :
    coroutine_self w = some (some A) := by
  simp [coroutine_self, hcur, curr_coroutine_of_stack h]

/-- The function `poll_inner` when the fallback cannot be taken: the loop runs to
its end and the timer is armed; then the call returns -1 if `addTimeout` failed
and goes into `yield_env` otherwise. -/
theorem poll_inner_setup_no_fallback (B : Backend) (ctx : epoll_context_t) (fds : List pollfd)
    (nfds : Nat) (timeout : Int) (pollfunc : Option poll_fun_t) (argp sp now : Nat) (w : World)
    (self : Option Nat)
    (hself : coroutine_self w = some self) (hlen : nfds ≤ fds.length)
    (hnf : nfds ≠ 1 ∨ pollfunc = none ∨
      ∀ regs, ∀ f ∈ fds, B.epoll_ctl_add regs ctx.fd f.fd ≠ some EPERM) :
    ∃ arg w0, SchedSame w w0 ∧ TimersSame w w0 ∧ w0.pollfunc_calls = w.pollfunc_calls ∧
      (∀ r ∈ w0.regs, r ∈ w.regs ∨ ∃ regs, B.epoll_ctl_add regs ctx.fd r.fd = none) ∧
      FreshContext nfds self arg ∧
      poll_inner_setup B ctx fds nfds timeout pollfunc argp sp now w =
        if B.addTimeout w.pending_timers arg.time now ≠ 0 then
          some (.returned (-1) fds,
            { w0 with timer_calls := w0.timer_calls ++ [.addTimeout argp], errno := EINVAL })
        else
          (get_curr_thread_env w).bind fun env =>
            (yield_env sp env
              { w0 with timer_calls := w0.timer_calls ++ [.addTimeout argp],
                        pending_timers := w0.pending_timers ++ [(argp, arg.time)] }).map
              fun w' => (.suspended arg, w') := by
  have hnf' : nfds ≠ 1 ∨ pollfunc = none ∨
      ∀ regs, ∀ f ∈ fds.take nfds, B.epoll_ctl_add regs ctx.fd f.fd ≠ some EPERM := by
    rcases hnf with h | h | h
    · exact Or.inl h
    · exact Or.inr (Or.inl h)
    · exact Or.inr (Or.inr (fun regs f hf => h regs f (List.mem_of_mem_take hf)))
  obtain ⟨arg0, w0, hloop, hs, ht, hp, hres, hregs⟩ :=
    poll_inner_add_ok B ctx.fd argp self fds nfds
      (if timeout > kMaxTimeoutMs then kMaxTimeoutMs else timeout) pollfunc (fds.take nfds) 0
      { fds := List.replicate nfds { fd := 0, events := 0, revents := 0 },
        nfds := nfds,
        time := { prepare := false, process := true, coroutine := self, expire := 0 },
        items := List.replicate nfds
          { self := 0, poll := 0,
            time := { prepare := false, process := false, coroutine := none, expire := 0 },
            event := { events := 0, ptr := none } },
        allEventDetatch := false,
        raise_cnt := 0 } w hnf'
  refine ⟨{ arg0 with time := { arg0.time with
      expire := (((now : Int) + (if timeout > kMaxTimeoutMs then kMaxTimeoutMs else timeout))
        % 2 ^ 64).toNat } }, w0, hs, ht, hp, hregs, ?_, ?_⟩
  · refine ⟨hres.raise_cnt, hres.allEventDetatch, hres.nfds, ?_, hres.fds, ?_, ?_, ?_⟩
    · rw [hres.items_length]; simp
    · intro j hj
      exact hres.self j (Nat.zero_le _) (by simp [List.length_take]; omega) (by simpa using hj)
    · show arg0.time.coroutine = self
      rw [hres.time]
    · show arg0.time.process = true
      rw [hres.time]
  · unfold poll_inner_setup
    simp only [hself, Option.bind_eq_bind, Option.some_bind]
    rw [if_neg (by omega)]
    rw [hloop]
    generalize (((now : Int) + (if timeout > kMaxTimeoutMs then kMaxTimeoutMs else timeout))
      % 2 ^ 64).toNat = E
    simp only [addTimeout, ht.pending_timers]
    generalize B.addTimeout w.pending_timers { arg0.time with expire := E } now = r
    by_cases hT : r = 0
    · subst hT
      simp only [if_true, ne_eq, not_true_eq_false, if_false, get_curr_thread_env, hs.gEnv, hs.pid]
      simp only [Option.map_eq_bind]
      rfl
    · simp only [hT, if_false, ne_eq, not_false_eq_true, if_true]

/-! ## Poll adapter: readiness callbacks -/

/-- One call of `preparePollEvent` for item `i`, whose descriptor copy is
`arg.fds[it.self]`. -/
theorem preparePollEvent_spec (argp i : Nat) (e : epoll_event) (arg : poll_context_t) (w : World)
    (it : poll_item_t) (f : pollfd)
    (hit : arg.items[i]? = some it) (hf : arg.fds[it.self]? = some f) :
    preparePollEvent argp i e arg w = some
      ({ arg with fds := arg.fds.set it.self { f with revents := EpollEvent2Poll e.events },
                  raise_cnt := arg.raise_cnt + 1,
                  allEventDetatch := true },
       if arg.allEventDetatch then w else addTail argp (removeFromLink argp w)) := by
  unfold preparePollEvent
  cases h : arg.allEventDetatch <;> simp [hit, hf, h]

/-- A run of readiness callbacks on items of one poll context. -/
theorem deliver_spec (argp : Nat) (events : List (Nat × epoll_event)) :
    ∀ (arg : poll_context_t) (w : World),
    (∀ p ∈ events, ∃ it, arg.items[p.1]? = some it ∧ it.self = p.1 ∧ p.1 < arg.fds.length) →
    ∃ arg' w', deliver argp events arg w = some (arg', w') ∧
      arg'.raise_cnt = arg.raise_cnt + events.length ∧
      arg'.items = arg.items ∧ arg'.fds.length = arg.fds.length ∧
      arg'.time = arg.time ∧ arg'.nfds = arg.nfds ∧
      (events ≠ [] → arg'.allEventDetatch = true) ∧
      (events = [] → arg' = arg) ∧
      w' = (if arg.allEventDetatch = false ∧ events ≠ [] then
              addTail argp (removeFromLink argp w) else w) ∧
      (∀ i : Nat, (∀ p ∈ events, p.1 ≠ i) → arg'.fds[i]? = arg.fds[i]?) ∧
      (∀ (i : Nat) (e : epoll_event),
        (events.filter (fun p => p.1 = i)).getLast? = some (i, e) →
        (arg'.fds[i]?).map (fun f => f.revents) = some (EpollEvent2Poll e.events)) := by
  induction events with
  | nil =>
    intro arg w _
    exact ⟨arg, w, rfl, by simp, rfl, rfl, rfl, rfl, fun h => absurd rfl h, fun _ => rfl,
      by simp, fun _ _ => rfl, fun i e h => by simp at h⟩
  | cons p rest ih =>
    intro arg w hwf
    obtain ⟨j, ej⟩ := p
    obtain ⟨it, hit, hself, hj⟩ := hwf (j, ej) (List.mem_cons_self _ _)
    simp only at hit hself hj
    have hf : arg.fds[it.self]? = some arg.fds[j] := by
      rw [hself]; exact List.getElem?_eq_getElem hj
    have hprep := preparePollEvent_spec argp j ej arg w it arg.fds[j] hit hf
    obtain ⟨arg', w', hrun, hcnt, hitems, hlen, htime, hnfds, hdet, -, hw, hkeep, hlast⟩ :=
      ih { arg with
            fds := arg.fds.set it.self { arg.fds[j] with revents := EpollEvent2Poll ej.events },
            raise_cnt := arg.raise_cnt + 1,
            allEventDetatch := true }
        (if arg.allEventDetatch then w else addTail argp (removeFromLink argp w))
        (by
          intro q hq
          obtain ⟨it', h1, h2, h3⟩ := hwf q (List.mem_cons_of_mem _ hq)
          exact ⟨it', h1, h2, by simpa using h3⟩)
    refine ⟨arg', w', ?_, ?_, hitems, ?_, htime, hnfds, ?_, ?_, ?_, ?_, ?_⟩
    · simp only [deliver, hprep]
      exact hrun
    · rw [hcnt]
      simp only [List.length_cons]
      push_cast
      omega
    · rw [hlen]; simp
    · intro _
      cases hr : rest with
      | nil =>
        have := hrun
        rw [hr] at this
        simp only [deliver, Option.some.injEq, Prod.mk.injEq] at this
        rw [← this.1]
      | cons q rest' => exact hdet (by rw [hr]; simp)
    · intro h; cases h
    · rw [hw]
      cases hd : arg.allEventDetatch <;> simp
    · intro i hi
      rw [hkeep i (fun q hq => hi q (List.mem_cons_of_mem _ hq))]
      have hne : j ≠ i := hi (j, ej) (List.mem_cons_self _ _)
      show (arg.fds.set it.self _)[i]? = _
      rw [hself, List.getElem?_set_ne hne]
    · intro i e h
      by_cases hji : j = i
      · subst hji
        by_cases hrest : rest.filter (fun p => p.1 = j) = []
        · have hnone : ∀ q ∈ rest, q.1 ≠ j := by
            intro q hq hqj
            have : q ∈ rest.filter (fun p => p.1 = j) := by
              simp [List.mem_filter, hq, hqj]
            rw [hrest] at this
            cases this
          have he : e = ej := by
            simp [List.filter_cons, hrest] at h
            exact h.symm
          rw [hkeep j hnone]
          show ((arg.fds.set it.self _)[j]?).map _ = _
          rw [hself, List.getElem?_set_self hj, he]
          rfl
        · apply hlast j e
          rw [← h]
          have hP : ((j, ej) :: rest).filter (fun p => p.1 = j)
              = (j, ej) :: rest.filter (fun p => p.1 = j) := by
            simp [List.filter_cons]
          rw [hP]
          cases hfl : rest.filter (fun p => p.1 = j) with
          | nil => exact absurd hfl hrest
          | cons a l => rw [List.getLast?_cons_cons]
      · apply hlast i e
        rw [← h]
        simp [List.filter_cons, hji]

/-! ## Poll adapter: teardown -/

theorem schedSame_removeFromLink (item : Nat) (w : World) : SchedSame w (removeFromLink item w) :=
  ⟨rfl, rfl, rfl, rfl, rfl, rfl⟩

theorem schedSame_addTail (item : Nat) (w : World) : SchedSame w (addTail item w) :=
  ⟨rfl, rfl, rfl, rfl, rfl, rfl⟩

theorem schedSame_stackOf {w w' : World} (h : SchedSame w w') (x : Nat) :
    w'.stackOf x = w.stackOf x := by
  simp [World.stackOf, h.envs]

theorem schedSame_curr_env {w w' : World} (h : SchedSame w w') :
    get_curr_thread_env w' = get_curr_thread_env w := by
  simp [get_curr_thread_env, h.gEnv, h.pid]

/-- The teardown loop: every descriptor with a non-negative handle is
deregistered and every entry of the caller's array gets the `revents` of its
copy in `arg.fds`. -/
theorem poll_inner_del_spec (epfd : Int) (arg : poll_context_t) (l : List pollfd) :
    ∀ (i : Nat) (w : World), i + l.length ≤ arg.fds.length →
    ∃ l' w', poll_inner_del epfd arg l i w = some (l', w') ∧
      l'.length = l.length ∧ SchedSame w w' ∧ TimersSame w w' ∧
      w'.pollfunc_calls = w.pollfunc_calls ∧
      (∀ (k : Nat) (f : pollfd), l[k]? = some f →
        ∃ a, arg.fds[i + k]? = some a ∧ l'[k]? = some { f with revents := a.revents }) ∧
      (∀ r ∈ w'.regs, r ∈ w.regs ∧ ∀ f ∈ l, f.fd > -1 → ¬ (r.epfd = epfd ∧ r.fd = f.fd)) := by
  induction l with
  | nil =>
    intro i w _
    exact ⟨[], w, rfl, rfl, schedSame_refl w, timersSame_refl w, rfl,
      fun k f h => by simp at h, fun r hr => ⟨hr, fun f hf => by simp at hf⟩⟩
  | cons f rest ih =>
    intro i w hlen
    simp only [List.length_cons] at hlen
    have hi : i < arg.fds.length := by omega
    obtain ⟨l', w', hrun, hl', hs, ht, hp, hcopy, hregs⟩ :=
      ih (i + 1) (if f.fd > -1 then do_epoll_ctl_del epfd f.fd w else w) (by omega)
    have hs1 : SchedSame w (if f.fd > -1 then do_epoll_ctl_del epfd f.fd w else w) := by
      split_ifs
      · exact ⟨rfl, rfl, rfl, rfl, rfl, rfl⟩
      · exact schedSame_refl w
    have ht1 : TimersSame w (if f.fd > -1 then do_epoll_ctl_del epfd f.fd w else w) := by
      split_ifs
      · exact ⟨rfl, rfl, rfl⟩
      · exact timersSame_refl w
    have hp1 : (if f.fd > -1 then do_epoll_ctl_del epfd f.fd w else w).pollfunc_calls
        = w.pollfunc_calls := by
      split_ifs <;> rfl
    refine ⟨{ f with revents := arg.fds[i].revents } :: l', w', ?_, by simp [hl'],
      schedSame_trans hs1 hs, timersSame_trans ht1 ht, hp.trans hp1, ?_, ?_⟩
    · unfold poll_inner_del
      simp only [Option.bind_eq_bind, List.getElem?_eq_getElem hi, Option.some_bind, hrun]
    · intro k g hk
      cases k with
      | zero =>
        simp only [List.getElem?_cons_zero, Option.some.injEq] at hk
        subst hk
        exact ⟨arg.fds[i], List.getElem?_eq_getElem hi, by simp⟩
      | succ k =>
        simp only [List.getElem?_cons_succ] at hk
        obtain ⟨a, ha, hl⟩ := hcopy k g hk
        refine ⟨a, ?_, by simpa using hl⟩
        rw [← ha]
        congr 1
        omega
    · intro r hr
      obtain ⟨h1, h2⟩ := hregs r hr
      by_cases hfd : f.fd > -1
      · rw [if_pos hfd] at h1
        simp only [do_epoll_ctl_del, List.mem_filter, decide_eq_true_eq] at h1
        refine ⟨h1.1, ?_⟩
        intro g hg hgfd
        rcases List.mem_cons.mp hg with rfl | hg'
        · exact h1.2
        · exact h2 g hg' hgfd
      · rw [if_neg hfd] at h1
        refine ⟨h1, ?_⟩
        intro g hg hgfd
        rcases List.mem_cons.mp hg with rfl | hg'
        · exact absurd hgfd hfd
        · exact h2 g hg' hgfd

/-! ## Poll adapter: one whole call -/

/-- The function `poll_inner` up to the suspension, when the fallback cannot be
taken and the timer structure accepts the deadline: the caller `self` is
suspended by a yield to `last`, the entry below it on the call stack. -/
theorem poll_inner_setup_suspends (B : Backend) (ctx : epoll_context_t) (fds : List pollfd)
    (nfds : Nat) (timeout : Int) (pollfunc : Option poll_fun_t) (argp sp now : Nat) (w : World)
    (env last self : Nat) (st : List Nat)
    (hcur : get_curr_thread_env w = some env)
    (hstack : w.stackOf env = some (st ++ [last, self]))
    (hlast : last < w.cos.length) (hself : self < w.cos.length)
    (hlen : nfds ≤ fds.length)
    (hnf : nfds ≠ 1 ∨ pollfunc = none ∨
      ∀ regs, ∀ f ∈ fds, B.epoll_ctl_add regs ctx.fd f.fd ≠ some EPERM)
    (hT : ∀ t, B.addTimeout w.pending_timers t now = 0) :
    ∃ arg w1, poll_inner_setup B ctx fds nfds timeout pollfunc argp sp now w
        = some (.suspended arg, w1) ∧
      FreshContext nfds (some self) arg ∧
      w1.stackOf env = some (st ++ [last]) ∧
      w1.transfers = w.transfers ++ [(self, last)] ∧
      w1.timer_calls = w.timer_calls ++ [.addTimeout argp] ∧
      w1.pending_timers = w.pending_timers ++ [(argp, arg.time)] ∧
      w1.active = w.active ∧
      w1.pollfunc_calls = w.pollfunc_calls ∧
      w1.cos.length = w.cos.length ∧ w1.envs.length = w.envs.length ∧
      get_curr_thread_env w1 = some env ∧
      (∀ p : Nat, (w1.cos[p]?).map (fun c => c.env) = (w.cos[p]?).map (fun c => c.env)) ∧
      (∀ r ∈ w1.regs, r ∈ w.regs ∨ ∃ regs, B.epoll_ctl_add regs ctx.fd r.fd = none) := by
  have hst' : w.stackOf env = some ((st ++ [last]) ++ [self]) := by simpa using hstack
  obtain ⟨arg, w0, hs, ht, hp, hregs, hfresh, heq⟩ :=
    poll_inner_setup_no_fallback B ctx fds nfds timeout pollfunc argp sp now w (some self)
      (coroutine_self_of_stack hcur hst') hlen hnf
  rw [if_neg (by simp [hT]), hcur, Option.some_bind] at heq
  have henvl : env < w.envs.length := by
    obtain ⟨e, cs, he, -⟩ := stackOf_top hst'
    exact (List.getElem?_eq_some.mp he).1
  obtain ⟨w1, hy, hs1, -, ht1, hf1, -, -⟩ :=
    yield_env_spec sp env env
      { w0 with timer_calls := w0.timer_calls ++ [.addTimeout argp],
                pending_timers := w0.pending_timers ++ [(argp, arg.time)] }
      st last self
      (by
        show (w0.envs[env]?).bind env_t.stack = some (st ++ [last, self])
        rw [hs.envs]; exact hstack)
      (by show last < w0.cos.length; rw [hs.cos]; exact hlast)
      (by show self < w0.cos.length; rw [hs.cos]; exact hself)
      (by
        show w0.gEnv w0.pid = some env
        rw [hs.gEnv, hs.pid]; exact hcur)
      (by show env < w0.envs.length; rw [hs.envs]; exact henvl)
  rw [hy] at heq
  refine ⟨arg, w1, heq, hfresh, hs1, ?_, ?_, ?_, ?_, ?_, ?_, ?_, ?_, ?_, ?_⟩
  · rw [ht1]; show w0.transfers ++ _ = _; rw [hs.transfers]
  · rw [hf1.timer_calls]; show w0.timer_calls ++ _ = _; rw [ht.timer_calls]
  · rw [hf1.pending_timers]; show w0.pending_timers ++ _ = _; rw [ht.pending_timers]
  · rw [hf1.active]; show w0.active = _; rw [ht.active]
  · rw [hf1.pollfunc_calls]; exact hp
  · rw [hf1.cos_length]; show w0.cos.length = _; rw [hs.cos]
  · rw [hf1.envs_length]; show w0.envs.length = _; rw [hs.envs]
  · rw [switchFrame_curr_env hf1]
    show w0.gEnv w0.pid = some env
    rw [hs.gEnv, hs.pid]; exact hcur
  · intro p
    rw [hf1.co_env]
    show (w0.cos[p]?).map _ = _
    rw [hs.cos]
  · rw [hf1.regs]
    exact hregs

/-- The function `poll_inner` when the fallback cannot be taken and the
deadline is refused by the timer structure: it returns -1 without a switch, and
without having touched the registrations again. -/
theorem poll_inner_setup_timer_failure (B : Backend) (ctx : epoll_context_t)
    (fds : List pollfd) (nfds : Nat) (timeout : Int) (pollfunc : Option poll_fun_t)
    (argp sp now : Nat) (w : World) (self : Option Nat)
    (hself : coroutine_self w = some self) (hlen : nfds ≤ fds.length)
    (hnf : nfds ≠ 1 ∨ pollfunc = none ∨
      ∀ regs, ∀ f ∈ fds, B.epoll_ctl_add regs ctx.fd f.fd ≠ some EPERM)
    (hT : ∀ t, B.addTimeout w.pending_timers t now ≠ 0) :
    ∃ w1, poll_inner_setup B ctx fds nfds timeout pollfunc argp sp now w
        = some (.returned (-1) fds, w1) ∧
      SchedSame w w1 ∧ w1.timer_calls = w.timer_calls ++ [.addTimeout argp] ∧
      w1.pending_timers = w.pending_timers ∧ w1.pollfunc_calls = w.pollfunc_calls ∧
      w1.errno = EINVAL := by
  obtain ⟨arg, w0, hs, ht, hp, -, hfresh, heq⟩ :=
    poll_inner_setup_no_fallback B ctx fds nfds timeout pollfunc argp sp now w self hself hlen hnf
  rw [if_pos (hT _)] at heq
  refine ⟨_, heq, ⟨hs.cos, hs.envs, hs.gEnv, hs.pid, hs.mem, hs.transfers⟩, ?_, ht.pending_timers,
    hp, rfl⟩
  show w0.timer_calls ++ _ = _
  rw [ht.timer_calls]

/-- C5 (as stated, refuted): one descriptor, and its readiness callback runs
twice while the caller is suspended.  `poll_inner` returns 2, although a single
descriptor fired and `nfds` is 1. -/
theorem poll_inner_counts_invocations :
    (poll_inner backend_accepting ⟨3⟩ fds_example 1 1000 none 100 50 0 60
        [(0, ⟨EPOLLIN, some (100, 0)⟩), (0, ⟨EPOLLIN, some (100, 0)⟩)] world_resumed).map
      (fun r => r.1) = some 2 ∧
    ([0, 0] : List Nat).dedup.length = 1 ∧ ¬ ((2 : Int) ≤ 1) := by
  decide

/-- C5 (amended): on the normal path of `poll_inner` (the fallback cannot be
taken, the timer structure accepts the deadline), for every descriptor array and
every sequence `events` of readiness callbacks on items of this call delivered
while the caller is suspended, the call returns the number of callback
invocations.  That number is 0 when only the timeout callback ran, it is never
less than the number of distinct descriptors that fired, and when no descriptor
fires twice it equals that number and is at most `nfds`.  Each fired descriptor
gets the translated mask of its latest event in the caller's array, every other
one gets 0, and the caller is again on top of the call stack. -/
theorem poll_inner_returns_fired_count (B : Backend) (ctx : epoll_context_t)
    (fds : List pollfd) (nfds : Nat) (timeout : Int) (pollfunc : Option poll_fun_t)
    (argp sp now sp2 : Nat) (events : List (Nat × epoll_event)) (w : World)
    (env last self : Nat) (st : List Nat) (c : coroutine_t)
    (hcur : get_curr_thread_env w = some env)
    (hstack : w.stackOf env = some (st ++ [last, self]))
    (hlast : last < w.cos.length)
    (hc : w.cos[self]? = some c) (hcenv : c.env = some env)
    (hlen : nfds ≤ fds.length)
    (hnf : nfds ≠ 1 ∨ pollfunc = none ∨
      ∀ regs, ∀ f ∈ fds, B.epoll_ctl_add regs ctx.fd f.fd ≠ some EPERM)
    (hT : ∀ t, B.addTimeout w.pending_timers t now = 0)
    (hev : ∀ p ∈ events, p.1 < nfds) :
    ∃ fds' w',
      poll_inner B ctx fds nfds timeout pollfunc argp sp now sp2 events w
        = some ((events.length : Int), fds', w') ∧
      (events = [] → poll_inner B ctx fds nfds timeout pollfunc argp sp now sp2 events w
        = some (0, fds', w')) ∧
      (events.map Prod.fst).dedup.length ≤ events.length ∧
      ((events.map Prod.fst).Nodup →
        events.length = (events.map Prod.fst).dedup.length ∧ events.length ≤ nfds) ∧
      fds'.length = fds.length ∧
      (∀ (i : Nat) (e : epoll_event), i < nfds →
        (events.filter (fun p => p.1 = i)).getLast? = some (i, e) →
        (fds'[i]?).map (fun f => f.revents) = some (EpollEvent2Poll e.events)) ∧
      (∀ i : Nat, i < nfds → (∀ p ∈ events, p.1 ≠ i) →
        (fds'[i]?).map (fun f => f.revents) = some 0) ∧
      w'.stackOf env = some (st ++ [last, self]) ∧
      w'.transfers = w.transfers ++ [(self, last), (last, self)] := by
  have hselfl : self < w.cos.length := (List.getElem?_eq_some.mp hc).1
  -- setup, up to the suspension
  obtain ⟨arg, w1, hsetup, hfresh, hs1, htr1, -, -, -, -, hcl1, hel1, hcur1, hcoenv1, -⟩ :=
    poll_inner_setup_suspends B ctx fds nfds timeout pollfunc argp sp now w env last self st
      hcur hstack hlast hselfl hlen hnf hT
  have hfdsl : arg.fds.length = nfds := by rw [hfresh.fds_eq]; simp
  -- the readiness callbacks
  obtain ⟨arg', w3, hdel, hcnt, hitems, hlen', htime, -, -, -, hw3, hkeep, hlatest⟩ :=
    deliver_spec argp events arg w1 (by
      intro p hp
      obtain ⟨it, h1, h2⟩ := hfresh.item_self p.1 (hev p hp)
      exact ⟨it, h1, h2, by rw [hfdsl]; exact hev p hp⟩)
  have hs13 : SchedSame w1 w3 := by
    rw [hw3]
    split_ifs
    · exact schedSame_trans (schedSame_removeFromLink argp w1) (schedSame_addTail argp _)
    · exact schedSame_refl w1
  -- the timer callback resumes the caller
  have hself3 : self < w3.cos.length := by rw [hs13.cos, hcl1]; exact hselfl
  have hc3env : (w3.cos[self]).env = some env := by
    have h := hcoenv1 self
    rw [← hs13.cos, List.getElem?_eq_getElem hself3, hc] at h
    simpa [hcenv] using h
  have henvl : env < w.envs.length := by
    have hst' : w.stackOf env = some ((st ++ [last]) ++ [self]) := by simpa using hstack
    obtain ⟨e, cs, he, -⟩ := stackOf_top hst'
    exact (List.getElem?_eq_some.mp he).1
  obtain ⟨w4, hres, hs4, -, htr4, hf4, -, -, -, e4, he4, hocc4, -⟩ :=
    coroutine_resume_spec sp2 self env env w3 (w3.cos[self]) st last
      (List.getElem?_eq_getElem hself3) hc3env
      (by rw [schedSame_stackOf hs13]; exact hs1)
      (by rw [hs13.cos, hcl1]; exact hlast)
      (by rw [schedSame_curr_env hs13]; exact hcur1)
      (by rw [hs13.envs, hel1]; exact henvl)
  have hproc : processPollEvent sp2 arg'.time w3 = some w4 := by
    simp only [processPollEvent, htime, hfresh.coroutine, Option.bind_eq_bind, Option.some_bind]
    exact hres
  have hidle : coroutine_swap_return w4 = some w4 :=
    coroutine_swap_return_idle w4 env e4
      ((switchFrame_curr_env hf4).trans ((schedSame_curr_env hs13).trans hcur1)) he4 hocc4
  -- teardown
  have htake : (fds.take nfds).length = nfds := by simp [List.length_take, hlen]
  obtain ⟨head, w5, hdl, hheadl, hs5, -, -, hcopy, -⟩ :=
    poll_inner_del_spec ctx.fd arg' (fds.take nfds) 0 (removeFromLink argp w4)
      (by rw [htake, hlen', hfdsl]; omega)
  have hfin : poll_inner_finish ctx fds nfds arg' argp w4
      = some (arg'.raise_cnt, head ++ fds.drop nfds, w5) := by
    simp only [poll_inner_finish, hdl, Option.bind_eq_bind, Option.some_bind]
  have hret : arg'.raise_cnt = (events.length : Int) := by
    rw [hcnt, hfresh.raise_cnt]; simp
  have hrun : poll_inner B ctx fds nfds timeout pollfunc argp sp now sp2 events w
      = some ((events.length : Int), head ++ fds.drop nfds, w5) := by
    simp only [poll_inner, hsetup, hdel, hproc, hidle, hfin, Option.bind_eq_bind,
      Option.some_bind, hret]
  have hrev : ∀ i : Nat, i < nfds →
      ((head ++ fds.drop nfds)[i]?).map (fun f => f.revents)
        = (arg'.fds[i]?).map (fun f => f.revents) := by
    intro i hi
    have hi' : i < (fds.take nfds).length := by rw [htake]; exact hi
    obtain ⟨a, ha, hh⟩ := hcopy i _ (List.getElem?_eq_getElem hi')
    rw [List.getElem?_append_left (by rw [hheadl]; exact hi'), hh]
    rw [Nat.zero_add] at ha
    rw [ha]
    rfl
  refine ⟨head ++ fds.drop nfds, w5, hrun, ?_, ?_, ?_, ?_, ?_, ?_, ?_, ?_⟩
  · intro h
    rw [hrun, h]
    rfl
  · calc (events.map Prod.fst).dedup.length ≤ (events.map Prod.fst).length :=
          (List.dedup_sublist _).length_le
      _ = events.length := by simp
  · intro hnd
    constructor
    · rw [List.Nodup.dedup hnd]; simp
    · have hsub : events.map Prod.fst ⊆ List.range nfds := by
        intro x hx
        obtain ⟨p, hp, rfl⟩ := List.mem_map.mp hx
        exact List.mem_range.mpr (hev p hp)
      have := (List.Nodup.subperm hnd hsub).length_le
      simpa using this
  · rw [List.length_append, hheadl, htake, List.length_drop]
    omega
  · intro i e hi hl
    rw [hrev i hi]
    exact hlatest i e hl
  · intro i hi hnone
    rw [hrev i hi, hkeep i hnone, hfresh.fds_eq]
    simp [List.getElem?_replicate, hi]
  · rw [schedSame_stackOf hs5]
    show w4.stackOf env = _
    exact hs4
  · rw [hs5.transfers]
    show w4.transfers = _
    rw [htr4, hs13.transfers, htr1]
    simp

theorem poll_inner_returns_fired_count_witness :
    ∃ fds' w',
      poll_inner backend_accepting ⟨3⟩ fds_example 1 1000 none 100 50 0 60
          [(0, ⟨EPOLLIN, some (100, 0)⟩)] world_resumed
        = some ((([(0, ⟨EPOLLIN, some (100, 0)⟩)] : List (Nat × epoll_event)).length : Int),
            fds', w') ∧
      (([(0, ⟨EPOLLIN, some (100, 0)⟩)] : List (Nat × epoll_event)) = [] →
        poll_inner backend_accepting ⟨3⟩ fds_example 1 1000 none 100 50 0 60
          [(0, ⟨EPOLLIN, some (100, 0)⟩)] world_resumed = some (0, fds', w')) ∧
      (([(0, ⟨EPOLLIN, some (100, 0)⟩)] : List (Nat × epoll_event)).map Prod.fst).dedup.length
        ≤ ([(0, ⟨EPOLLIN, some (100, 0)⟩)] : List (Nat × epoll_event)).length ∧
      ((([(0, ⟨EPOLLIN, some (100, 0)⟩)] : List (Nat × epoll_event)).map Prod.fst).Nodup →
        ([(0, ⟨EPOLLIN, some (100, 0)⟩)] : List (Nat × epoll_event)).length
          = (([(0, ⟨EPOLLIN, some (100, 0)⟩)] : List (Nat × epoll_event)).map
              Prod.fst).dedup.length ∧
        ([(0, ⟨EPOLLIN, some (100, 0)⟩)] : List (Nat × epoll_event)).length ≤ 1) ∧
      fds'.length = fds_example.length ∧
      (∀ (i : Nat) (e : epoll_event), i < 1 →
        (([(0, ⟨EPOLLIN, some (100, 0)⟩)] : List (Nat × epoll_event)).filter
          (fun p => p.1 = i)).getLast? = some (i, e) →
        (fds'[i]?).map (fun f => f.revents) = some (EpollEvent2Poll e.events)) ∧
      (∀ i : Nat, i < 1 →
        (∀ p ∈ ([(0, ⟨EPOLLIN, some (100, 0)⟩)] : List (Nat × epoll_event)), p.1 ≠ i) →
        (fds'[i]?).map (fun f => f.revents) = some 0) ∧
      w'.stackOf 0 = some ([] ++ [0, 1]) ∧
      w'.transfers = world_resumed.transfers ++ [(1, 0), (0, 1)] :=
  poll_inner_returns_fired_count backend_accepting ⟨3⟩ fds_example 1 1000 none 100 50 0 60
    [(0, ⟨EPOLLIN, some (100, 0)⟩)] world_resumed 0 0 1 []
    { co_example (some 7) .RUNNING with context := .entry 1 }
    (by decide) (by decide) (by decide) (by decide) (by decide) (by decide)
    (Or.inr (Or.inl rfl)) (fun _ => rfl) (by decide)

/-! ## Poll adapter: fallback, failures, callbacks -/

theorem deliver_pollfunc_calls (argp : Nat) (events : List (Nat × epoll_event)) :
    ∀ (arg arg' : poll_context_t) (w w' : World),
    deliver argp events arg w = some (arg', w') → w'.pollfunc_calls = w.pollfunc_calls := by
  induction events with
  | nil =>
    intro arg arg' w w' h
    simp only [deliver, Option.some.injEq, Prod.mk.injEq] at h
    rw [← h.2]
  | cons p rest ih =>
    intro arg arg' w w' h
    obtain ⟨j, ej⟩ := p
    simp only [deliver] at h
    cases hp : preparePollEvent argp j ej arg w with
    | none => simp [hp] at h
    | some r =>
      obtain ⟨arg1, w1⟩ := r
      simp only [hp] at h
      rw [ih arg1 arg' w1 w' h]
      unfold preparePollEvent at hp
      simp only [Option.bind_eq_bind, Option.bind_eq_some] at hp
      obtain ⟨it, -, f, -, hp⟩ := hp
      split_ifs at hp
      · simp only [Option.some.injEq, Prod.mk.injEq] at hp
        rw [← hp.2]; rfl
      · simp only [Option.some.injEq, Prod.mk.injEq] at hp
        rw [← hp.2]

theorem poll_inner_del_pollfunc_calls (epfd : Int) (arg : poll_context_t) (l : List pollfd) :
    ∀ (i : Nat) (w w' : World) (l' : List pollfd),
    poll_inner_del epfd arg l i w = some (l', w') → w'.pollfunc_calls = w.pollfunc_calls := by
  induction l with
  | nil =>
    intro i w w' l' h
    simp only [poll_inner_del, Option.some.injEq, Prod.mk.injEq] at h
    rw [← h.2]
  | cons f rest ih =>
    intro i w w' l' h
    unfold poll_inner_del at h
    simp only [Option.bind_eq_bind, Option.bind_eq_some] at h
    obtain ⟨a, -, r, hr, h⟩ := h
    obtain ⟨rest', w1⟩ := r
    simp only [Option.some.injEq, Prod.mk.injEq] at h
    rw [← h.2, ih (i + 1) _ w1 rest' hr]
    split_ifs <;> rfl

theorem coroutine_swap_return_pollfunc_calls {w w' : World}
    (h : coroutine_swap_return w = some w') : w'.pollfunc_calls = w.pollfunc_calls := by
  unfold coroutine_swap_return at h
  simp only [Option.bind_eq_bind, Option.bind_eq_some] at h
  obtain ⟨ce, -, e, -, h⟩ := h
  split at h
  · split_ifs at h
    · simp only [Option.bind_eq_some] at h
      obtain ⟨p, -, h⟩ := h
      split at h
      · split_ifs at h <;> (simp only [Option.some.injEq] at h; rw [← h])
      · simp only [Option.some.injEq] at h; rw [← h]
    · simp only [Option.some.injEq] at h; rw [← h]
  · simp only [Option.some.injEq] at h; rw [← h]

/-- Without the three fallback conditions, no call goes through a `poll_fun_t`
during a whole call of `poll_inner`. -/
theorem poll_inner_never_falls_back (B : Backend) (ctx : epoll_context_t) (fds : List pollfd)
    (nfds : Nat) (timeout : Int) (pollfunc : Option poll_fun_t) (argp sp now sp2 : Nat)
    (events : List (Nat × epoll_event)) (w w' : World) (ret : Int) (fds' : List pollfd)
    (hnf : nfds ≠ 1 ∨ pollfunc = none ∨
      ∀ regs, ∀ f ∈ fds, B.epoll_ctl_add regs ctx.fd f.fd ≠ some EPERM)
    (h : poll_inner B ctx fds nfds timeout pollfunc argp sp now sp2 events w
      = some (ret, fds', w')) :
    w'.pollfunc_calls = w.pollfunc_calls := by
  unfold poll_inner at h
  simp only [Option.bind_eq_bind, Option.bind_eq_some] at h
  obtain ⟨⟨r, w1⟩, hsetup, h⟩ := h
  have hself : ∃ self, coroutine_self w = some self := by
    cases hs : coroutine_self w with
    | none => simp [poll_inner_setup, hs] at hsetup
    | some s => exact ⟨s, rfl⟩
  obtain ⟨self, hself⟩ := hself
  have hlen : nfds ≤ fds.length := by
    by_contra hlt
    simp [poll_inner_setup, hself, Nat.lt_of_not_le hlt] at hsetup
  obtain ⟨arg, w0, hs, ht, hp, -, hfresh, heq⟩ :=
    poll_inner_setup_no_fallback B ctx fds nfds timeout pollfunc argp sp now w self hself hlen hnf
  rw [hsetup] at heq
  have hw1 : w1.pollfunc_calls = w.pollfunc_calls := by
    split_ifs at heq
    · simp only [Option.some.injEq, Prod.mk.injEq] at heq
      rw [heq.2]; exact hp
    · symm at heq
      simp only [Option.bind_eq_some, Option.map_eq_some', Prod.mk.injEq] at heq
      obtain ⟨env, -, w2, hy, -, hw⟩ := heq
      subst hw
      obtain ⟨ce, st, X, Y, hst, hX, hY, hcur, hce⟩ := yield_env_inv hy
      obtain ⟨w'', hy', -, -, -, hf, -, -⟩ := yield_env_spec sp env ce _ st X Y hst hX hY hcur hce
      rw [hy] at hy'
      rw [Option.some.inj hy', hf.pollfunc_calls]
      exact hp
  cases r with
  | returned ret0 fds0 =>
    simp only [Option.some.injEq, Prod.mk.injEq] at h
    rw [← h.2.2]; exact hw1
  | suspended arg1 =>
    simp only [Option.bind_eq_some] at h
    obtain ⟨⟨arg2, w3⟩, hdel, w4, hproc, w5, hsw, hfin⟩ := h
    have h3 := deliver_pollfunc_calls argp events arg1 arg2 w1 w3 hdel
    have h4 : w4.pollfunc_calls = w3.pollfunc_calls := by
      unfold processPollEvent at hproc
      simp only [Option.bind_eq_bind, Option.bind_eq_some] at hproc
      obtain ⟨co, -, hres⟩ := hproc
      obtain ⟨c, env, ce, st, A, hc, hcenv, hst, hA, hcur, hce⟩ := coroutine_resume_inv hres
      obtain ⟨w'', hres', -, -, -, hf, -⟩ :=
        coroutine_resume_spec sp2 co env ce w3 c st A hc hcenv hst hA hcur hce
      rw [hres] at hres'
      rw [Option.some.inj hres', hf.pollfunc_calls]
    have h5 := coroutine_swap_return_pollfunc_calls hsw
    unfold poll_inner_finish at hfin
    simp only [Option.bind_eq_bind, Option.bind_eq_some] at hfin
    obtain ⟨⟨head, w6⟩, hdl, hfin⟩ := hfin
    simp only [Option.some.injEq, Prod.mk.injEq] at hfin
    have h6 := poll_inner_del_pollfunc_calls ctx.fd arg2 _ 0 _ w6 head hdl
    rw [← hfin.2.2, h6]
    show w5.pollfunc_calls = _
    rw [h5, h4, h3, hw1]

/-- C6: `poll_inner` is called with exactly one descriptor `f` with a
non-negative handle and a fallback `pf`, and the backend answers the
registration with EPERM.  Then `poll_inner` returns what `pf` returns on the
caller's array (with length 1 and the clamped timeout): `pf` is called once, no
timer call is made, nothing is registered, and no switch happens (transfers,
coroutines and environments, hence the call stacks, are untouched).
Conversely, when `nfds != 1`, or the fallback is NULL, or the backend never
answers EPERM for these descriptors, a completed call has made no call through
a `poll_fun_t`. -/
theorem poll_inner_fallback (B : Backend) (ctx : epoll_context_t) (fds : List pollfd)
    (timeout : Int) (pf : poll_fun_t) (argp sp now sp2 : Nat)
    (events : List (Nat × epoll_event)) (w : World) (f : pollfd) (self : Option Nat)
    (hf : fds[0]? = some f) (hfd : f.fd > -1)
    (hself : coroutine_self w = some self)
    (hrej : B.epoll_ctl_add w.regs ctx.fd f.fd = some EPERM) :
    (∃ w', poll_inner B ctx fds 1 timeout (some pf) argp sp now sp2 events w
        = some ((pf fds 1 (if timeout > kMaxTimeoutMs then kMaxTimeoutMs else timeout)).1,
                (pf fds 1 (if timeout > kMaxTimeoutMs then kMaxTimeoutMs else timeout)).2, w') ∧
      poll_inner_setup B ctx fds 1 timeout (some pf) argp sp now w
        = some (.returned
            (pf fds 1 (if timeout > kMaxTimeoutMs then kMaxTimeoutMs else timeout)).1
            (pf fds 1 (if timeout > kMaxTimeoutMs then kMaxTimeoutMs else timeout)).2, w') ∧
      w'.pollfunc_calls = w.pollfunc_calls ++
        [(fds, 1, if timeout > kMaxTimeoutMs then kMaxTimeoutMs else timeout)] ∧
      w'.timer_calls = w.timer_calls ∧ w'.pending_timers = w.pending_timers ∧
      w'.active = w.active ∧ w'.regs = w.regs ∧
      w'.transfers = w.transfers ∧ w'.cos = w.cos ∧ w'.envs = w.envs ∧
      (∀ x, w'.stackOf x = w.stackOf x)) ∧
    (∀ (B' : Backend) (ctx' : epoll_context_t) (fds' : List pollfd) (nfds' : Nat)
       (timeout' : Int) (pollfunc' : Option poll_fun_t) (argp' sp' now' sp2' : Nat)
       (events' : List (Nat × epoll_event)) (v v' : World) (ret : Int) (out : List pollfd),
      (nfds' ≠ 1 ∨ pollfunc' = none ∨
        ∀ regs, ∀ g ∈ fds', B'.epoll_ctl_add regs ctx'.fd g.fd ≠ some EPERM) →
      poll_inner B' ctx' fds' nfds' timeout' pollfunc' argp' sp' now' sp2' events' v
        = some (ret, out, v') →
      v'.pollfunc_calls = v.pollfunc_calls) := by
  constructor
  · obtain ⟨rest, hfds⟩ : ∃ rest, fds = f :: rest := by
      cases fds with
      | nil => simp at hf
      | cons g rest =>
        simp only [List.getElem?_cons_zero, Option.some.injEq] at hf
        exact ⟨rest, by rw [hf]⟩
    have hsetup : poll_inner_setup B ctx fds 1 timeout (some pf) argp sp now w
        = some (.returned
            (pf fds 1 (if timeout > kMaxTimeoutMs then kMaxTimeoutMs else timeout)).1
            (pf fds 1 (if timeout > kMaxTimeoutMs then kMaxTimeoutMs else timeout)).2,
          { w with errno := EPERM,
                   pollfunc_calls := w.pollfunc_calls ++
                     [(fds, 1, if timeout > kMaxTimeoutMs then kMaxTimeoutMs else timeout)] }) := by
      unfold poll_inner_setup
      simp only [hself, Option.bind_eq_bind, Option.some_bind]
      rw [if_neg (by rw [hfds]; simp)]
      have htake : List.take 1 fds = [f] := by rw [hfds]; simp
      rw [htake]
      simp only [poll_inner_add, if_pos hfd, do_epoll_ctl_add, hrej]
      simp
    refine ⟨_, ?_, hsetup, rfl, rfl, rfl, rfl, rfl, rfl, rfl, rfl, fun _ => rfl⟩
    simp only [poll_inner, hsetup, Option.bind_eq_bind, Option.some_bind]
  · intro B' ctx' fds' nfds' timeout' pollfunc' argp' sp' now' sp2' events' v v' ret out hnf h
    exact poll_inner_never_falls_back B' ctx' fds' nfds' timeout' pollfunc' argp' sp' now' sp2'
      events' v v' ret out hnf h

theorem poll_inner_fallback_witness :
    (∃ w', poll_inner backend_eperm ⟨3⟩ fds_example 1 50000 (some pollfunc_example) 100 50 0 60 []
          world_resumed
        = some ((pollfunc_example fds_example 1
                  (if (50000 : Int) > kMaxTimeoutMs then kMaxTimeoutMs else 50000)).1,
                (pollfunc_example fds_example 1
                  (if (50000 : Int) > kMaxTimeoutMs then kMaxTimeoutMs else 50000)).2, w') ∧
      poll_inner_setup backend_eperm ⟨3⟩ fds_example 1 50000 (some pollfunc_example) 100 50 0
          world_resumed
        = some (.returned
            (pollfunc_example fds_example 1
              (if (50000 : Int) > kMaxTimeoutMs then kMaxTimeoutMs else 50000)).1
            (pollfunc_example fds_example 1
              (if (50000 : Int) > kMaxTimeoutMs then kMaxTimeoutMs else 50000)).2, w') ∧
      w'.pollfunc_calls = world_resumed.pollfunc_calls ++
        [(fds_example, 1, if (50000 : Int) > kMaxTimeoutMs then kMaxTimeoutMs else 50000)] ∧
      w'.timer_calls = world_resumed.timer_calls ∧
      w'.pending_timers = world_resumed.pending_timers ∧
      w'.active = world_resumed.active ∧ w'.regs = world_resumed.regs ∧
      w'.transfers = world_resumed.transfers ∧ w'.cos = world_resumed.cos ∧
      w'.envs = world_resumed.envs ∧
      (∀ x, w'.stackOf x = world_resumed.stackOf x)) ∧
    (∀ (B' : Backend) (ctx' : epoll_context_t) (fds' : List pollfd) (nfds' : Nat)
       (timeout' : Int) (pollfunc' : Option poll_fun_t) (argp' sp' now' sp2' : Nat)
       (events' : List (Nat × epoll_event)) (v v' : World) (ret : Int) (out : List pollfd),
      (nfds' ≠ 1 ∨ pollfunc' = none ∨
        ∀ regs, ∀ g ∈ fds', B'.epoll_ctl_add regs ctx'.fd g.fd ≠ some EPERM) →
      poll_inner B' ctx' fds' nfds' timeout' pollfunc' argp' sp' now' sp2' events' v
        = some (ret, out, v') →
      v'.pollfunc_calls = v.pollfunc_calls) :=
  poll_inner_fallback backend_eperm ⟨3⟩ fds_example 50000 pollfunc_example 100 50 0 60 []
    world_resumed ⟨5, POLLIN, 0⟩ (some 1) (by decide) (by decide) (by decide) rfl

/-- C7 (the code at the failing input): one descriptor (handle 5, POLLIN), the
backend accepts the registration and the timer structure refuses the deadline.
`poll_inner` returns -1 without a switch, but the registration of descriptor 5
made by this call is still held by the backend, which held none before. -/
theorem poll_inner_timer_failure_keeps_registration :
    (poll_inner_setup backend_timer_refusing ⟨3⟩ fds_example 1 1000 none 100 50 0
        world_resumed).map (fun r => (r.1, r.2.regs, r.2.transfers))
      = some (.returned (-1) fds_example,
          [{ epfd := 3, fd := 5, events := EPOLLIN, ptr := (100, 0) }],
          world_resumed.transfers) ∧
    world_resumed.regs = [] := by
  decide

/-- C8 (as stated, refuted): one descriptor, no fallback, and the backend
refuses the registration with EBADF.  `poll_inner` does not return a negative
value: it arms the timer and suspends the caller (a transfer from coroutine 1 to
coroutine 0), and once the timeout callback has resumed it, it returns 0. -/
theorem poll_inner_ignores_registration_failure :
    (poll_inner_setup backend_rejecting ⟨3⟩ fds_example 1 1000 none 100 50 0
        world_resumed).map
        (fun r => (r.1.isSuspended, r.2.regs, r.2.transfers, r.2.timer_calls))
      = some (true, [], world_resumed.transfers ++ [(1, 0)], [.addTimeout 100]) ∧
    (poll_inner backend_rejecting ⟨3⟩ fds_example 1 1000 none 100 50 0 60 []
        world_resumed).map (fun r => r.1) = some 0 ∧
    ¬ ((0 : Int) < 0) := by
  decide

/-- C8 (amended): when the fallback conditions are not all met, `poll_inner`
does not propagate a failed registration.  A descriptor handle `fd` that the
backend refuses is left unregistered, the deadline timer is armed, and, if the
timer structure accepts the deadline, the caller is suspended by a yield; the
call returns a negative value (-1) only if the timer structure refuses the
deadline, and then without a switch. -/
theorem poll_inner_registration_failure (B : Backend) (ctx : epoll_context_t)
    (fds : List pollfd) (nfds : Nat) (timeout : Int) (pollfunc : Option poll_fun_t)
    (argp sp now : Nat) (w : World) (env last self : Nat) (st : List Nat) (fd : Int)
    (hcur : get_curr_thread_env w = some env)
    (hstack : w.stackOf env = some (st ++ [last, self]))
    (hlast : last < w.cos.length) (hself : self < w.cos.length)
    (hlen : nfds ≤ fds.length)
    (hnf : nfds ≠ 1 ∨ pollfunc = none ∨
      ∀ regs, ∀ g ∈ fds, B.epoll_ctl_add regs ctx.fd g.fd ≠ some EPERM)
    (hrej : ∀ regs, B.epoll_ctl_add regs ctx.fd fd ≠ none) :
    ((∀ t, B.addTimeout w.pending_timers t now = 0) →
      ∃ arg w1, poll_inner_setup B ctx fds nfds timeout pollfunc argp sp now w
          = some (.suspended arg, w1) ∧
        w1.transfers = w.transfers ++ [(self, last)] ∧
        w1.stackOf env = some (st ++ [last]) ∧
        w1.timer_calls = w.timer_calls ++ [.addTimeout argp] ∧
        w1.pending_timers = w.pending_timers ++ [(argp, arg.time)] ∧
        w1.pollfunc_calls = w.pollfunc_calls ∧
        (∀ r ∈ w1.regs, r.fd = fd → r ∈ w.regs)) ∧
    ((∀ t, B.addTimeout w.pending_timers t now ≠ 0) →
      ∃ w1, poll_inner_setup B ctx fds nfds timeout pollfunc argp sp now w
          = some (.returned (-1) fds, w1) ∧
        w1.transfers = w.transfers ∧ w1.envs = w.envs ∧
        w1.timer_calls = w.timer_calls ++ [.addTimeout argp] ∧
        w1.pending_timers = w.pending_timers ∧
        w1.pollfunc_calls = w.pollfunc_calls) := by
  constructor
  · intro hT
    obtain ⟨arg, w1, hsetup, -, hs1, htr1, htc, hpt, -, hpc, -, -, -, -, hregs⟩ :=
      poll_inner_setup_suspends B ctx fds nfds timeout pollfunc argp sp now w env last self st
        hcur hstack hlast hself hlen hnf hT
    refine ⟨arg, w1, hsetup, htr1, hs1, htc, hpt, hpc, ?_⟩
    intro r hr hrf
    rcases hregs r hr with h | ⟨regs, h⟩
    · exact h
    · rw [hrf] at h
      exact absurd h (hrej regs)
  · intro hT
    have hst' : w.stackOf env = some ((st ++ [last]) ++ [self]) := by simpa using hstack
    obtain ⟨w1, hsetup, hs, htc, hpt, hpc, -⟩ :=
      poll_inner_setup_timer_failure B ctx fds nfds timeout pollfunc argp sp now w (some self)
        (coroutine_self_of_stack hcur hst') hlen hnf hT
    exact ⟨w1, hsetup, hs.transfers, hs.envs, htc, hpt, hpc⟩

theorem poll_inner_registration_failure_witness :
    ((∀ t, backend_rejecting.addTimeout world_resumed.pending_timers t 0 = 0) →
      ∃ arg w1, poll_inner_setup backend_rejecting ⟨3⟩ fds_example 1 1000 none 100 50 0
            world_resumed
          = some (.suspended arg, w1) ∧
        w1.transfers = world_resumed.transfers ++ [(1, 0)] ∧
        w1.stackOf 0 = some ([] ++ [0]) ∧
        w1.timer_calls = world_resumed.timer_calls ++ [.addTimeout 100] ∧
        w1.pending_timers = world_resumed.pending_timers ++ [(100, arg.time)] ∧
        w1.pollfunc_calls = world_resumed.pollfunc_calls ∧
        (∀ r ∈ w1.regs, r.fd = 5 → r ∈ world_resumed.regs)) ∧
    ((∀ t, backend_rejecting.addTimeout world_resumed.pending_timers t 0 ≠ 0) →
      ∃ w1, poll_inner_setup backend_rejecting ⟨3⟩ fds_example 1 1000 none 100 50 0
            world_resumed
          = some (.returned (-1) fds_example, w1) ∧
        w1.transfers = world_resumed.transfers ∧ w1.envs = world_resumed.envs ∧
        w1.timer_calls = world_resumed.timer_calls ++ [.addTimeout 100] ∧
        w1.pending_timers = world_resumed.pending_timers ∧
        w1.pollfunc_calls = world_resumed.pollfunc_calls) :=
  poll_inner_registration_failure backend_rejecting ⟨3⟩ fds_example 1 1000 none 100 50 0
    world_resumed 0 0 1 [] 5 (by decide) (by decide) (by decide) (by decide)
    (by decide) (Or.inr (Or.inl rfl)) (fun _ h => by cases h)

/-! ## Event mask translation (EpollEvent2Poll) -/

theorem and_two_pow_ne_zero (m a : Nat) : m &&& 2 ^ a ≠ 0 ↔ m.testBit a = true := by
  constructor
  · intro h
    by_contra hb
    apply h
    apply Nat.eq_of_testBit_eq
    intro j
    rw [Nat.testBit_and, Nat.testBit_two_pow, Nat.zero_testBit]
    by_cases haj : a = j
    · subst haj
      simp [hb]
    · simp [haj]
  · intro h h0
    have := congrArg (fun x => x.testBit a) h0
    simp [Nat.testBit_and, Nat.testBit_two_pow, h] at this

/-- One line of a translation: `if (events & E) e |= P;` for single-bit masks
`E = 2 ^ a` and `P = 2 ^ b`. -/
theorem flag_step_testBit (m acc a b j : Nat) :
    (if m &&& 2 ^ a ≠ 0 then acc ||| 2 ^ b else acc).testBit j
      = (acc.testBit j || (m.testBit a && decide (b = j))) := by
  by_cases h : m &&& 2 ^ a ≠ 0
  · rw [if_pos h, Nat.testBit_or, Nat.testBit_two_pow, (and_two_pow_ne_zero m a).mp h]
    simp
  · rw [if_neg h]
    have : m.testBit a = false := by
      cases hb : m.testBit a with
      | false => rfl
      | true => exact absurd ((and_two_pow_ne_zero m a).mpr hb) h
    simp [this]

/-- The bits of `EpollEvent2Poll events`: bit `j` is set exactly when it is set
in `events` and `j` is the position of one of the six translated flags (IN 0,
OUT 2, ERR 3, HUP 4, RDNORM 6, WRNORM 8). -/
theorem EpollEvent2Poll_testBit (m j : Nat) :
    (EpollEvent2Poll m).testBit j
      = (m.testBit j &&
          (decide (j = 0) || decide (j = 2) || decide (j = 3) || decide (j = 4) ||
            decide (j = 6) || decide (j = 8))) := by
  have e0 : EPOLLIN = 2 ^ 0 := by decide
  have e2 : EPOLLOUT = 2 ^ 2 := by decide
  have e3 : EPOLLERR = 2 ^ 3 := by decide
  have e4 : EPOLLHUP = 2 ^ 4 := by decide
  have e6 : EPOLLRDNORM = 2 ^ 6 := by decide
  have e8 : EPOLLWRNORM = 2 ^ 8 := by decide
  have p0 : POLLIN = 2 ^ 0 := by decide
  have p2 : POLLOUT = 2 ^ 2 := by decide
  have p3 : POLLERR = 2 ^ 3 := by decide
  have p4 : POLLHUP = 2 ^ 4 := by decide
  have p6 : POLLRDNORM = 2 ^ 6 := by decide
  have p8 : POLLWRNORM = 2 ^ 8 := by decide
  unfold EpollEvent2Poll
  simp only [e0, e2, e3, e4, e6, e8, p0, p2, p3, p4, p6, p8, flag_step_testBit,
    Nat.zero_testBit, Bool.false_or]
  by_cases h0 : j = 0
  · subst h0; simp
  by_cases h2 : j = 2
  · subst h2; simp
  by_cases h3 : j = 3
  · subst h3; simp
  by_cases h4 : j = 4
  · subst h4; simp
  by_cases h6 : j = 6
  · subst h6; simp
  by_cases h8 : j = 8
  · subst h8; simp
  simp [h0, h2, h3, h4, h6, h8, Ne.symm h0, Ne.symm h2, Ne.symm h3, Ne.symm h4, Ne.symm h6,
    Ne.symm h8]

/-- The translation flag by flag: a poll flag is set in the result exactly when
the matching epoll flag is set in the backend mask, and no other bit is set. -/
theorem EpollEvent2Poll_flags (m : Nat) :
    (EpollEvent2Poll m &&& POLLIN ≠ 0 ↔ m &&& EPOLLIN ≠ 0) ∧
    (EpollEvent2Poll m &&& POLLOUT ≠ 0 ↔ m &&& EPOLLOUT ≠ 0) ∧
    (EpollEvent2Poll m &&& POLLHUP ≠ 0 ↔ m &&& EPOLLHUP ≠ 0) ∧
    (EpollEvent2Poll m &&& POLLERR ≠ 0 ↔ m &&& EPOLLERR ≠ 0) ∧
    (EpollEvent2Poll m &&& POLLRDNORM ≠ 0 ↔ m &&& EPOLLRDNORM ≠ 0) ∧
    (EpollEvent2Poll m &&& POLLWRNORM ≠ 0 ↔ m &&& EPOLLWRNORM ≠ 0) ∧
    EpollEvent2Poll m &&&
        (POLLIN ||| POLLOUT ||| POLLHUP ||| POLLERR ||| POLLRDNORM ||| POLLWRNORM)
      = EpollEvent2Poll m := by
  have key : ∀ a : Nat, (a = 0 ∨ a = 2 ∨ a = 3 ∨ a = 4 ∨ a = 6 ∨ a = 8) →
      (EpollEvent2Poll m &&& 2 ^ a ≠ 0 ↔ m &&& 2 ^ a ≠ 0) := by
    intro a ha
    rw [and_two_pow_ne_zero, and_two_pow_ne_zero, EpollEvent2Poll_testBit]
    rcases ha with h | h | h | h | h | h <;> subst h <;> simp
  refine ⟨key 0 (by simp), key 2 (by simp), key 4 (by simp), key 3 (by simp), key 6 (by simp),
    key 8 (by simp), ?_⟩
  apply Nat.eq_of_testBit_eq
  intro j
  have hmask : (POLLIN ||| POLLOUT ||| POLLHUP ||| POLLERR ||| POLLRDNORM ||| POLLWRNORM)
      = 2 ^ 0 ||| 2 ^ 2 ||| 2 ^ 4 ||| 2 ^ 3 ||| 2 ^ 6 ||| 2 ^ 8 := by decide
  rw [hmask, Nat.testBit_and, EpollEvent2Poll_testBit]
  simp only [Nat.testBit_or, Nat.testBit_two_pow]
  by_cases h0 : j = 0
  · subst h0; simp
  by_cases h2 : j = 2
  · subst h2; simp
  by_cases h3 : j = 3
  · subst h3; simp
  by_cases h4 : j = 4
  · subst h4; simp
  by_cases h6 : j = 6
  · subst h6; simp
  by_cases h8 : j = 8
  · subst h8; simp
  simp [h0, h2, h3, h4, h6, h8]

/-- C9: on a poll context as `poll_inner` builds it (nothing detached, fired
count 0), after `n >= 1` calls of `preparePollEvent` on items of the context:
the fired count is `n`; the timer collaborator saw exactly one `removeFromLink`
and one `addTail` for the call's timer item, both made by the first call, after
which the timers never change again; the item is out of the pending timers and
once in the active list; and every item that was called has the translation of
its latest backend mask in the `revents` of its descriptor.  The translation is
the one of `EpollEvent2Poll`: in `revents` each of POLLIN, POLLOUT, POLLHUP,
POLLERR, POLLRDNORM, POLLWRNORM is set exactly when the matching EPOLL flag is
set in the backend mask, and no other bit is set. -/
theorem preparePollEvent_detaches_once (argp nfds : Nat) (caller : Option Nat)
    (events : List (Nat × epoll_event)) (arg : poll_context_t) (w : World)
    (hfresh : FreshContext nfds caller arg)
    (hev : ∀ p ∈ events, p.1 < nfds) (hne : events ≠ []) :
    ∃ arg' w', deliver argp events arg w = some (arg', w') ∧
      arg'.raise_cnt = (events.length : Int) ∧
      arg'.allEventDetatch = true ∧
      w'.timer_calls = w.timer_calls ++ [.removeFromLink argp, .addTail argp] ∧
      w'.timer_calls.count (.removeFromLink argp)
        = w.timer_calls.count (.removeFromLink argp) + 1 ∧
      w'.timer_calls.count (.addTail argp) = w.timer_calls.count (.addTail argp) + 1 ∧
      w'.pending_timers = w.pending_timers.filter (fun p => p.1 ≠ argp) ∧
      (∀ t, (argp, t) ∉ w'.pending_timers) ∧
      w'.active = w.active.filter (fun a => a ≠ argp) ++ [argp] ∧
      w'.active.count argp = 1 ∧
      (∀ (i0 : Nat) (e0 : epoll_event) (rest : List (Nat × epoll_event)),
        events = (i0, e0) :: rest →
        ∃ arg1, preparePollEvent argp i0 e0 arg w = some (arg1, w') ∧
          deliver argp rest arg1 w' = some (arg', w')) ∧
      (∀ (i : Nat) (e : epoll_event),
        (events.filter (fun p => p.1 = i)).getLast? = some (i, e) →
        (arg'.fds[i]?).map (fun f => f.revents) = some (EpollEvent2Poll e.events)) ∧
      (∀ (i : Nat) (e : epoll_event),
        (events.filter (fun p => p.1 = i)).getLast? = some (i, e) →
        ∃ f, arg'.fds[i]? = some f ∧
          (f.revents &&& POLLIN ≠ 0 ↔ e.events &&& EPOLLIN ≠ 0) ∧
          (f.revents &&& POLLOUT ≠ 0 ↔ e.events &&& EPOLLOUT ≠ 0) ∧
          (f.revents &&& POLLHUP ≠ 0 ↔ e.events &&& EPOLLHUP ≠ 0) ∧
          (f.revents &&& POLLERR ≠ 0 ↔ e.events &&& EPOLLERR ≠ 0) ∧
          (f.revents &&& POLLRDNORM ≠ 0 ↔ e.events &&& EPOLLRDNORM ≠ 0) ∧
          (f.revents &&& POLLWRNORM ≠ 0 ↔ e.events &&& EPOLLWRNORM ≠ 0) ∧
          f.revents &&&
              (POLLIN ||| POLLOUT ||| POLLHUP ||| POLLERR ||| POLLRDNORM ||| POLLWRNORM)
            = f.revents ∧
          (∀ j : Nat, f.revents.testBit j
            = (e.events.testBit j &&
                (decide (j = 0) || decide (j = 2) || decide (j = 3) || decide (j = 4) ||
                  decide (j = 6) || decide (j = 8))))) := by
  have hfdsl : arg.fds.length = nfds := by rw [hfresh.fds_eq]; simp
  have hwf : ∀ p ∈ events, ∃ it, arg.items[p.1]? = some it ∧ it.self = p.1 ∧
      p.1 < arg.fds.length := by
    intro p hp
    obtain ⟨it, h1, h2⟩ := hfresh.item_self p.1 (hev p hp)
    exact ⟨it, h1, h2, by rw [hfdsl]; exact hev p hp⟩
  obtain ⟨arg', w', hrun, hcnt, -, -, -, -, hdet, -, hw, -, hlatest⟩ :=
    deliver_spec argp events arg w hwf
  rw [if_pos ⟨hfresh.allEventDetatch, hne⟩] at hw
  subst hw
  refine ⟨arg', _, hrun, ?_, hdet hne, ?_, ?_, ?_, rfl, ?_, rfl, ?_, ?_, hlatest, ?_⟩
  · rw [hcnt, hfresh.raise_cnt]; simp
  · simp [addTail, removeFromLink]
  · simp [addTail, removeFromLink, List.count_append, List.count_cons]
  · simp [addTail, removeFromLink, List.count_append, List.count_cons]
  · intro t ht
    simp [addTail, removeFromLink, List.mem_filter] at ht
  · show (w.active.filter (fun a => a ≠ argp) ++ [argp]).count argp = 1
    rw [List.count_append]
    have : (w.active.filter (fun a => a ≠ argp)).count argp = 0 := by
      rw [List.count_eq_zero]
      intro hmem
      simp [List.mem_filter] at hmem
    rw [this]
    simp
  · intro i0 e0 rest hev0
    subst hev0
    obtain ⟨it, hit, hself, hj⟩ := hwf (i0, e0) (List.mem_cons_self _ _)
    simp only at hit hself hj
    have hf : arg.fds[it.self]? = some arg.fds[i0] := by
      rw [hself]; exact List.getElem?_eq_getElem hj
    have hprep := preparePollEvent_spec argp i0 e0 arg w it arg.fds[i0] hit hf
    rw [hfresh.allEventDetatch] at hprep
    simp only [Bool.false_eq_true, if_false] at hprep
    refine ⟨_, hprep, ?_⟩
    simp only [deliver, hprep] at hrun
    exact hrun
  · intro i e hl
    have h := hlatest i e hl
    cases hfi : arg'.fds[i]? with
    | none => simp [hfi] at h
    | some f =>
      have hrev : f.revents = EpollEvent2Poll e.events := by simpa [hfi] using h
      obtain ⟨h1, h2, h3, h4, h5, h6, h7⟩ := EpollEvent2Poll_flags e.events
      refine ⟨f, rfl, ?_, ?_, ?_, ?_, ?_, ?_, ?_, ?_⟩
      · rw [hrev]; exact h1
      · rw [hrev]; exact h2
      · rw [hrev]; exact h3
      · rw [hrev]; exact h4
      · rw [hrev]; exact h5
      · rw [hrev]; exact h6
      · rw [hrev]; exact h7
      · intro j
        rw [hrev]; exact EpollEvent2Poll_testBit e.events j

theorem preparePollEvent_detaches_once_witness :
    (∃ arg' w', deliver 100 events_example arg_example world_resumed = some (arg', w') ∧
      arg'.raise_cnt = (events_example.length : Int) ∧
      arg'.allEventDetatch = true ∧
      w'.timer_calls = world_resumed.timer_calls ++ [.removeFromLink 100, .addTail 100] ∧
      w'.timer_calls.count (.removeFromLink 100)
        = world_resumed.timer_calls.count (.removeFromLink 100) + 1 ∧
      w'.timer_calls.count (.addTail 100) = world_resumed.timer_calls.count (.addTail 100) + 1 ∧
      w'.pending_timers = world_resumed.pending_timers.filter (fun p => p.1 ≠ 100) ∧
      (∀ t, (100, t) ∉ w'.pending_timers) ∧
      w'.active = world_resumed.active.filter (fun a => a ≠ 100) ++ [100] ∧
      w'.active.count 100 = 1 ∧
      (∀ (i0 : Nat) (e0 : epoll_event) (rest : List (Nat × epoll_event)),
        events_example = (i0, e0) :: rest →
        ∃ arg1, preparePollEvent 100 i0 e0 arg_example world_resumed = some (arg1, w') ∧
          deliver 100 rest arg1 w' = some (arg', w')) ∧
      (∀ (i : Nat) (e : epoll_event),
        (events_example.filter (fun p => p.1 = i)).getLast? = some (i, e) →
        (arg'.fds[i]?).map (fun f => f.revents) = some (EpollEvent2Poll e.events)) ∧
      (∀ (i : Nat) (e : epoll_event),
        (events_example.filter (fun p => p.1 = i)).getLast? = some (i, e) →
        ∃ f, arg'.fds[i]? = some f ∧
          (f.revents &&& POLLIN ≠ 0 ↔ e.events &&& EPOLLIN ≠ 0) ∧
          (f.revents &&& POLLOUT ≠ 0 ↔ e.events &&& EPOLLOUT ≠ 0) ∧
          (f.revents &&& POLLHUP ≠ 0 ↔ e.events &&& EPOLLHUP ≠ 0) ∧
          (f.revents &&& POLLERR ≠ 0 ↔ e.events &&& EPOLLERR ≠ 0) ∧
          (f.revents &&& POLLRDNORM ≠ 0 ↔ e.events &&& EPOLLRDNORM ≠ 0) ∧
          (f.revents &&& POLLWRNORM ≠ 0 ↔ e.events &&& EPOLLWRNORM ≠ 0) ∧
          f.revents &&&
              (POLLIN ||| POLLOUT ||| POLLHUP ||| POLLERR ||| POLLRDNORM ||| POLLWRNORM)
            = f.revents ∧
          (∀ j : Nat, f.revents.testBit j
            = (e.events.testBit j &&
                (decide (j = 0) || decide (j = 2) || decide (j = 3) || decide (j = 4) ||
                  decide (j = 6) || decide (j = 8)))))) ∧
    (deliver 100 events_example arg_example world_resumed).map
        (fun r => (r.1.raise_cnt, r.1.fds.map (fun f => f.revents), r.1.allEventDetatch))
      = some (2, [4], true) ∧
    (deliver 100 events_example arg_example world_resumed).map
        (fun r => (r.2.timer_calls, r.2.active, r.2.pending_timers.map (fun p => p.1)))
      = some ([.removeFromLink 100, .addTail 100], [100], []) ∧
    ((deliver 100 (events_example.take 1) arg_example world_resumed).bind
        (fun r => (deliver 100 (events_example.drop 1) r.1 r.2).map
          (fun r' => (r.1.fds.map (fun f => f.revents), r.2.timer_calls,
            r'.1.fds.map (fun f => f.revents), r'.2.timer_calls))))
      = some ([1], [.removeFromLink 100, .addTail 100],
              [4], [.removeFromLink 100, .addTail 100]) ∧
    events_example.map (fun p => p.2.events) = [1, 6] ∧ POLLIN = 1 ∧ POLLOUT = 4 :=
  ⟨preparePollEvent_detaches_once 100 1 (some 1) events_example arg_example world_resumed
    ⟨rfl, rfl, rfl, rfl, rfl,
      fun j hj => by
        have hj0 : j = 0 := by omega
        subst hj0
        exact ⟨_, rfl, rfl⟩,
      rfl, rfl⟩
    (by decide) (by decide),
   by decide, by decide, by decide, by decide, by decide, by decide⟩

end Libcr
